import Mathlib

/-!
FairRoute benefit triage assistant: clarification session and case-profile assembly.

A shallow embedding of `src/frontend/src/main.jsx`: the clarifier question catalog, the
reducer that writes clarifier answers back into the case profile, the session state
held by the `App` component together with its event handlers, and the parts of the two
views that decide what is shown.

JavaScript values are embedded as follows.

* A plain object is an association list in property order; reading a missing key gives
  `undefined`, assigning to an existing key keeps its position and assigning to a new key
  appends it.
* A number is an IEEE 754 double (`JSNum`): `NaN`, an infinity, or a signed dyadic fraction
  in lowest terms; `Number(raw)` rounds the value of a numeric literal to the nearest
  double, ties to the even one.
* React state is a record (`AppState`); a handler is a function on that record and an
  asynchronous handler is split at its `await` into the part that runs at the click and
  the parts that run when the response arrives.
-/

namespace FairRoute

/-! ## JavaScript values -/

/-- A JavaScript number, an IEEE 754 double: `NaN`, an infinity, or the finite value
`± numerator / 2 ^ binaryPlaces`. A double is written in lowest terms, `binaryPlaces = 0`
or `numerator` odd, so an integer `n` is `finite _ n 0` and two doubles are equal exactly
when their terms are equal; `negative` tells `-0` from `+0`. -/
inductive JSNum where
  | nan
  | infinity (negative : Bool)
  | finite (negative : Bool) (numerator : Nat) (binaryPlaces : Nat)
  deriving DecidableEq, Repr

/-- A value stored in a case profile. Objects and arrays are kept by reference, the code
never looks inside one. -/
inductive JSValue where
  | undefined
  | null
  | bool (b : Bool)
  | num (n : JSNum)
  | str (s : String)
  | object (ref : Nat)
  deriving DecidableEq, Repr

/-- A raw clarifier answer, the value found at `clarifierAnswers[field]`: a string written
by `handleClarifierChange`, or `undefined` for a key that was never written. `null` is
never written by the code but is tested for by it. -/
inductive RawAnswer where
  | undefined
  | null
  | str (s : String)
  deriving DecidableEq, Repr

/-- The profile value that holds a raw answer unchanged (`updatedProfile[q.field] = raw`). -/
def RawAnswer.toValue : RawAnswer → JSValue
  | .undefined => .undefined
  | .null => .null
  | .str s => .str s

/-- A plain object: its own properties in order. -/
abbrev JSObject (α : Type) := List (String × α)

/-- Own-property lookup, `none` when the key is absent. -/
def JSObject.get? {α : Type} : JSObject α → String → Option α
  | [], _ => none
  | (k, v) :: rest, key => if k = key then some v else JSObject.get? rest key

/-- Property assignment `obj[key] = v` on a fresh copy of `obj`. -/
def JSObject.set {α : Type} : JSObject α → String → α → JSObject α
  | [], key, v => [(key, v)]
  | (k, w) :: rest, key, v =>
    if k = key then (k, v) :: rest else (k, w) :: JSObject.set rest key v

/-- A case profile: attribute key to value. -/
abbrev CaseProfile := JSObject JSValue

/-- The clarifier answers: field to raw value. -/
abbrev ClarifierAnswers := JSObject RawAnswer

/-- Property read `profile[key]`. -/
def CaseProfile.get (p : CaseProfile) (key : String) : JSValue :=
  (JSObject.get? p key).getD JSValue.undefined

/-- Property read `clarifierAnswers[key]`. -/
def ClarifierAnswers.get (a : ClarifierAnswers) (key : String) : RawAnswer :=
  (JSObject.get? a key).getD RawAnswer.undefined

/-! ## Strings: `trim` and `Number` -/

/-- White space and line terminators, the characters `String.prototype.trim` removes. -/
def isStrWhiteSpaceChar (c : Char) : Bool :=
  c.toNat ∈ [0x9, 0xA, 0xB, 0xC, 0xD, 0x20, 0xA0, 0x1680, 0x2028, 0x2029, 0x202F, 0x205F,
    0x3000, 0xFEFF] || (0x2000 ≤ c.toNat && c.toNat ≤ 0x200A)

/-- Trimming of a character list at both ends. -/
def trimChars (cs : List Char) : List Char :=
  ((cs.dropWhile isStrWhiteSpaceChar).reverse.dropWhile isStrWhiteSpaceChar).reverse

/-- The method `s.trim()`. -/
def jsTrim (s : String) : String := ⟨trimChars s.data⟩

/-- Value of one digit character (decimal or hexadecimal). -/
def digitVal (c : Char) : Nat :=
  if '0' ≤ c ∧ c ≤ '9' then c.toNat - 48
  else if 'a' ≤ c ∧ c ≤ 'f' then c.toNat - 87
  else if 'A' ≤ c ∧ c ≤ 'F' then c.toNat - 55
  else 0

/-- Whether `c` is a digit of the given radix (2, 8, 10 or 16). -/
def isDigitIn (radix : Nat) (c : Char) : Bool :=
  (('0' ≤ c ∧ c ≤ '9') ∨ ('a' ≤ c ∧ c ≤ 'f') ∨ ('A' ≤ c ∧ c ≤ 'F')) && digitVal c < radix

/-- Value of a digit string in the given radix. -/
def digitsValue (radix : Nat) (ds : List Char) : Nat :=
  ds.foldl (fun acc c => acc * radix + digitVal c) 0

/-- The position of the leading binary digit of `n`, by halving at most `fuel` times. -/
def log2FloorAux : Nat → Nat → Nat
  | 0, _ => 0
  | fuel + 1, n => if 2 ≤ n then log2FloorAux fuel (n / 2) + 1 else 0

/-- The position of the leading binary digit of `n`: the largest `k` with `2 ^ k ≤ n`, and
`0` for `n = 0`. -/
def log2Floor (n : Nat) : Nat := log2FloorAux n n

/-- The integer nearest to `a / b`, the even one of the two when `a / b` lies half way. -/
def roundHalfEven (a b : Nat) : Nat :=
  if 2 * (a % b) < b then a / b
  else if b < 2 * (a % b) then a / b + 1
  else if (a / b) % 2 = 0 then a / b
  else a / b + 1

/-- The largest `k` with `2 ^ k ≤ a / b`, for positive `a` and `b`. -/
def floorLog2Ratio (a b : Nat) : Int :=
  if (log2Floor b ≤ log2Floor a ∧ b * 2 ^ (log2Floor a - log2Floor b) ≤ a) ∨
      (log2Floor a < log2Floor b ∧ b ≤ a * 2 ^ (log2Floor b - log2Floor a)) then
    (log2Floor a : Int) - (log2Floor b : Int)
  else (log2Floor a : Int) - (log2Floor b : Int) - 1

/-- The double `± m / 2 ^ k` in lowest terms. -/
def reduceBinary (negative : Bool) : Nat → Nat → JSNum
  | m, 0 => .finite negative m 0
  | m, k + 1 => if m % 2 = 0 then reduceBinary negative (m / 2) k else .finite negative m (k + 1)

/-- The double nearest to `± a / b` (`b` positive), ties to even: 53 significant binary
digits, no binary place beyond the 1074th, and an infinity from `2 ^ 1024` on. -/
def roundToDouble (negative : Bool) (a b : Nat) : JSNum :=
  if a = 0 then .finite negative 0 0
  else
    let e : Int := max (floorLog2Ratio a b - 52) (-1074)
    if 0 ≤ e then
      let m := roundHalfEven a (b * 2 ^ e.toNat)
      if 1024 ≤ log2Floor m + e.toNat then .infinity negative
      else .finite negative (m * 2 ^ e.toNat) 0
    else
      reduceBinary negative (roundHalfEven (a * 2 ^ (-e).toNat) b) (-e).toNat

/-- The double nearest to `± mantissa · 10 ^ exponent`. -/
def ofDecimal (negative : Bool) (mantissa : Nat) (exponent : Int) : JSNum :=
  if 0 ≤ exponent then roundToDouble negative (mantissa * 10 ^ exponent.toNat) 1
  else roundToDouble negative mantissa (10 ^ (-exponent).toNat)

/-- The literals `0x…`, `0o…`, `0b…` after their two-character head. -/
def parseRadix (radix : Nat) (ds : List Char) : JSNum :=
  if ds ≠ [] ∧ ds.all (isDigitIn radix) = true then roundToDouble false (digitsValue radix ds) 1
  else .nan

/-- The optional exponent part that ends a decimal literal: nothing, or `e`/`E`, an
optional sign and at least one digit. -/
def parseExponent : List Char → Option Int
  | [] => some 0
  | c :: rest =>
    if c = 'e' ∨ c = 'E' then
      match rest with
      | '+' :: ds =>
        if ds ≠ [] ∧ ds.all (isDigitIn 10) = true then some (digitsValue 10 ds) else none
      | '-' :: ds =>
        if ds ≠ [] ∧ ds.all (isDigitIn 10) = true then some (-(digitsValue 10 ds : Int))
        else none
      | ds =>
        if ds ≠ [] ∧ ds.all (isDigitIn 10) = true then some (digitsValue 10 ds) else none
    else none

/-- An unsigned decimal literal: `Infinity`, or digits with an optional fraction and an
optional exponent, at least one digit before or after the point. -/
def parseDecimal (negative : Bool) (cs : List Char) : JSNum :=
  if cs = "Infinity".data then .infinity negative
  else
    let intPart := cs.takeWhile (isDigitIn 10)
    let afterInt := cs.dropWhile (isDigitIn 10)
    let fracPart := match afterInt with
      | '.' :: t => t.takeWhile (isDigitIn 10)
      | _ => []
    let afterFrac := match afterInt with
      | '.' :: t => t.dropWhile (isDigitIn 10)
      | _ => afterInt
    if intPart = [] ∧ fracPart = [] then .nan
    else
      match parseExponent afterFrac with
      | none => .nan
      | some e => ofDecimal negative (digitsValue 10 (intPart ++ fracPart)) (e - fracPart.length)

/-- The conversion `Number(s)` of a string: white space is trimmed, the empty string is
`0`, a numeric literal is the double nearest to its value and anything else is `NaN`. -/
def StringToNumber (s : String) : JSNum :=
  match trimChars s.data with
  | [] => .finite false 0 0
  | '0' :: 'x' :: ds => parseRadix 16 ds
  | '0' :: 'X' :: ds => parseRadix 16 ds
  | '0' :: 'o' :: ds => parseRadix 8 ds
  | '0' :: 'O' :: ds => parseRadix 8 ds
  | '0' :: 'b' :: ds => parseRadix 2 ds
  | '0' :: 'B' :: ds => parseRadix 2 ds
  | '+' :: cs => parseDecimal false cs
  | '-' :: cs => parseDecimal true cs
  | cs => parseDecimal false cs

/-- The conversion `Number(raw)` of a raw answer. -/
def RawAnswer.toNumber : RawAnswer → JSNum
  | .undefined => .nan
  | .null => .finite false 0 0
  | .str s => StringToNumber s

/-- The conversion `String(raw)` of a raw answer. -/
def RawAnswer.toJSString : RawAnswer → String
  | .undefined => "undefined"
  | .null => "null"
  | .str s => s

/-! ## The question catalog (`main.jsx` lines 35-94 and 133-232) -/

/-- One entry of an options table: `{ value, label }`. -/
structure SelectOption where
  value : String
  label : String
  deriving DecidableEq, Repr

/-- A clarifier question descriptor. `options`, `min` and `max` are `none` where the
descriptor does not carry the key. -/
structure ClarifierQuestion where
  id : String
  field : String
  label : String
  type : String
  required : Bool
  options : Option (List SelectOption)
  min : Option Int
  max : Option Int
  deriving DecidableEq, Repr

def PROVINCE_OPTIONS : List SelectOption :=
  [⟨"AB", "Alberta"⟩, ⟨"BC", "British Columbia"⟩, ⟨"MB", "Manitoba"⟩,
   ⟨"NB", "New Brunswick"⟩, ⟨"NL", "Newfoundland and Labrador"⟩, ⟨"NS", "Nova Scotia"⟩,
   ⟨"NT", "Northwest Territories"⟩, ⟨"NU", "Nunavut"⟩, ⟨"ON", "Ontario"⟩,
   ⟨"PE", "Prince Edward Island"⟩, ⟨"QC", "Quebec"⟩, ⟨"SK", "Saskatchewan"⟩,
   ⟨"YT", "Yukon"⟩]

def EMPLOYMENT_STATUS_OPTIONS : List SelectOption :=
  [⟨"employed", "Employed"⟩, ⟨"unemployed", "Unemployed"⟩,
   ⟨"self_employed", "Self-employed"⟩, ⟨"gig", "Gig / casual work"⟩,
   ⟨"retired", "Retired"⟩, ⟨"student", "Student"⟩, ⟨"other", "Other / not listed"⟩]

def UNEMPLOYMENT_REASON_OPTIONS : List SelectOption :=
  [⟨"layoff", "Laid off / shortage of work"⟩, ⟨"end_of_contract", "End of contract"⟩,
   ⟨"quit", "Quit the job"⟩, ⟨"fired_for_cause", "Dismissed for cause"⟩,
   ⟨"health", "Health-related"⟩, ⟨"family_care", "Caring for a family member"⟩,
   ⟨"school", "Going to school / training"⟩, ⟨"other", "Other / not sure"⟩]

def LANGUAGE_OPTIONS : List SelectOption :=
  [⟨"en", "English"⟩, ⟨"fr", "French"⟩, ⟨"zh", "Chinese"⟩, ⟨"other", "Other"⟩]

def RESIDENCY_STATUS_OPTIONS : List SelectOption :=
  [⟨"canadian_resident", "Resident of Canada for tax purposes"⟩,
   ⟨"permanent_resident", "Permanent resident"⟩,
   ⟨"temporary_resident", "Temporary resident / worker / student"⟩,
   ⟨"refugee_claimant", "Refugee claimant"⟩, ⟨"other", "Other / not sure"⟩]

def YES_NO_OPTIONS : List SelectOption := [⟨"yes", "Yes"⟩, ⟨"no", "No"⟩]

/-- The ordered catalog of clarifier questions. -/
def CLARIFIER_QUESTIONS : List ClarifierQuestion :=
  [ { id := "province", field := "province",
      label := "In which province or territory do you live?",
      type := "select", required := true, options := some PROVINCE_OPTIONS,
      min := none, max := none },
    { id := "age", field := "age", label := "How old are you?",
      type := "number", required := true, options := none, min := some 16, max := some 80 },
    { id := "employment_status", field := "employment_status",
      label := "What best describes your work situation right now?",
      type := "select", required := true, options := some EMPLOYMENT_STATUS_OPTIONS,
      min := none, max := none },
    { id := "unemployment_reason", field := "unemployment_reason",
      label := "If you are not working, what is the main reason?",
      type := "select", required := false, options := some UNEMPLOYMENT_REASON_OPTIONS,
      min := none, max := none },
    { id := "children_count", field := "children_count",
      label := "How many children under 18 live with you most of the time?",
      type := "number", required := true, options := none, min := some 0, max := some 10 },
    { id := "youngest_child_age", field := "youngest_child_age",
      label := "How old is your youngest child?",
      type := "number", required := false, options := none, min := some 0, max := some 17 },
    { id := "is_single_parent", field := "is_single_parent",
      label := "Are you the only adult primarily caring for the children (a single parent)?",
      type := "boolean", required := false, options := none, min := none, max := none },
    { id := "has_disability", field := "has_disability",
      label := "Do you have a disability that affects how you work or access services?",
      type := "boolean", required := false, options := none, min := none, max := none },
    { id := "needs_accommodation", field := "needs_accommodation",
      label := "Do you need any specific accommodations when dealing with government (for example, sign language, plain language, mobility support)?",
      type := "boolean", required := false, options := none, min := none, max := none },
    { id := "preferred_language", field := "preferred_language",
      label := "Which language would you prefer to use with this assistant?",
      type := "select", required := false, options := some LANGUAGE_OPTIONS,
      min := none, max := none },
    { id := "insurable_hours_last_52_weeks", field := "insurable_hours_last_52_weeks",
      label := "Roughly how many insurable hours did you work in the last 52 weeks? You can give a range.",
      type := "range", required := false, options := none, min := none, max := none },
    { id := "residency_status", field := "residency_status",
      label := "What best describes your residency status for tax purposes?",
      type := "select", required := false, options := some RESIDENCY_STATUS_OPTIONS,
      min := none, max := none } ]

/-! ## The merge reducer (`applyClarifiersToProfile`, lines 398-427) -/

/-- The body of the `forEach` callback of `applyClarifiersToProfile` (lines 404-420): what
one question does to the profile copy. -/
def clarifierStep (clarifierAnswers : ClarifierAnswers) (updatedProfile : CaseProfile)
    (q : ClarifierQuestion) : CaseProfile :=
  let raw := clarifierAnswers.get q.field
  if raw = .undefined ∨ raw = .null ∨ raw = .str "" then updatedProfile
  else if q.type = "number" then
    let n := raw.toNumber
    if n ≠ .nan then JSObject.set updatedProfile q.field (.num n) else updatedProfile
  else if q.type = "boolean" then
    if raw = .str "yes" then JSObject.set updatedProfile q.field (.bool true)
    else if raw = .str "no" then JSObject.set updatedProfile q.field (.bool false)
    else updatedProfile
  else JSObject.set updatedProfile q.field raw.toValue

/-- The loop `questions.forEach(...)` started on a copy of `prevProfile`. -/
def applyQuestions (questions : List ClarifierQuestion) (clarifierAnswers : ClarifierAnswers)
    (prevProfile : CaseProfile) : CaseProfile :=
  questions.foldl (clarifierStep clarifierAnswers) prevProfile

/-- The object `updatedProfile` that `applyClarifiersToProfile` stores as the new
`case_profile`: the copy `{ ...prevProfile }` after the loop over `CLARIFIER_QUESTIONS`. -/
def updatedProfile (clarifierAnswers : ClarifierAnswers) (prevProfile : CaseProfile) :
    CaseProfile :=
  applyQuestions CLARIFIER_QUESTIONS clarifierAnswers prevProfile

/-! ## Application state (`App`, lines 236-255) -/

/-- The parse response kept in `parseResult`. `case_profile` is `none` when the key is
absent or `null`; `other` holds the keys the code does not read. -/
structure ParseResult where
  case_profile : Option CaseProfile
  follow_up_questions : Option (List JSValue)
  other : JSObject JSValue
  deriving DecidableEq, Repr

/-- One program recommendation of the evaluate response. -/
structure Recommendation where
  service_id : String
  service_name : String
  eligibility_status : String
  explanation_client : Option String
  explanation_staff : Option String
  required_documents : List String
  rule_hits : List String
  deriving DecidableEq, Repr

/-- The evaluate response kept in `evalResult`. -/
structure EvalResult where
  recommendations : Option (List Recommendation)
  ticket_priority : JSValue
  deriving DecidableEq, Repr

/-- The `useState` cells of `App` that the session, the gate and the views read. The
language and accessibility cells are left out: no handler below reads or writes them. -/
structure AppState where
  activeTab : String
  text : String
  parseResult : Option ParseResult
  evalResult : Option EvalResult
  loadingParse : Bool
  loadingEval : Bool
  error : String
  clarifierIndex : Nat
  clarifierAnswers : ClarifierAnswers
  clarifiersStarted : Bool
  clarifiersDone : Bool
  infoConfirmed : Bool
  deriving DecidableEq, Repr

/-- The initial values of the `useState` cells. -/
def AppState.initial : AppState :=
  { activeTab := "citizen", text := "", parseResult := none, evalResult := none,
    loadingParse := false, loadingEval := false, error := "", clarifierIndex := 0,
    clarifierAnswers := [], clarifiersStarted := false, clarifiersDone := false,
    infoConfirmed := false }

/-! ## Handlers -/

/-- The object `emptyAnswers` built at lines 320-323. -/
def emptyAnswers : ClarifierAnswers :=
  CLARIFIER_QUESTIONS.foldl (fun acc q => JSObject.set acc q.field (RawAnswer.str "")) []

/-- The part of `handleParse` that runs at the click, up to the `await` (lines 295-306). -/
def handleParseStart (s : AppState) : AppState :=
  if jsTrim s.text = "" then s
  else
    { s with loadingParse := true, error := "", evalResult := none, clarifierIndex := 0,
             clarifiersStarted := false, clarifiersDone := false, infoConfirmed := false }

/-- The part of `handleParse` that runs when the response arrived and was read
(lines 316-329 and the `finally`); `data` is `none` for a falsy body. -/
def handleParseSuccess (s : AppState) (data : Option ParseResult) : AppState :=
  { s with parseResult := data, clarifierAnswers := emptyAnswers, clarifierIndex := 0,
           clarifiersStarted := true, clarifiersDone := false, infoConfirmed := false,
           loadingParse := false }

/-- The `catch` branch of `handleParse` (lines 330-339 and the `finally`). -/
def handleParseFailure (s : AppState) : AppState :=
  { s with
    error := "Step 1 could not reach the backend. Please confirm http://127.0.0.1:8000 is running.",
    parseResult := none, clarifierAnswers := [], clarifiersStarted := false,
    clarifiersDone := false, infoConfirmed := false, loadingParse := false }

/-- The value `profileForEval` that `handleEvaluate` sends as `case_profile` in the
request body (lines 349-368); `none` when the handler returns before sending. -/
def profileForEval (s : AppState) : Option CaseProfile :=
  match s.parseResult with
  | none => none
  | some parseResult => parseResult.case_profile

/-- The part of `handleEvaluate` that runs at the click (lines 349-356). -/
def handleEvaluateStart (s : AppState) : AppState :=
  match profileForEval s with
  | none => s
  | some _ => { s with loadingEval := true, error := "", infoConfirmed := false }

/-- The part of `handleEvaluate` that runs when the response arrived (lines 377-379, 385). -/
def handleEvaluateSuccess (s : AppState) (data : Option EvalResult) : AppState :=
  { s with evalResult := data, loadingEval := false }

/-- The `catch` branch of `handleEvaluate` (lines 380-385). -/
def handleEvaluateFailure (s : AppState) : AppState :=
  { s with error := "调用 /api/intake/evaluate 失败（看 Console 有详细错误）",
           evalResult := none, loadingEval := false }

/-- The handler `handleClarifierChange` (lines 391-396). -/
def handleClarifierChange (s : AppState) (field : String) (value : RawAnswer) : AppState :=
  { s with clarifierAnswers := JSObject.set s.clarifierAnswers field value }

/-- The state update of `applyClarifiersToProfile` (lines 398-427). -/
def applyClarifiersToProfile (s : AppState) : AppState :=
  { s with parseResult :=
      match s.parseResult with
      | none => none
      | some prev =>
        some { prev with
          case_profile := some (updatedProfile s.clarifierAnswers (prev.case_profile.getD [])) } }

/-- The handler `handleClarifierNext` (lines 429-438). -/
def handleClarifierNext (s : AppState) : AppState :=
  if s.clarifierIndex ≥ CLARIFIER_QUESTIONS.length - 1 then
    { applyClarifiersToProfile s with clarifiersDone := true, clarifiersStarted := false }
  else
    { s with clarifierIndex := s.clarifierIndex + 1 }

/-! ## Values derived in `renderCitizenView` (lines 470-488) and what the views show -/

/-- The question `activeClarifier`, `none` for `null` or `undefined`. -/
def activeClarifier (s : AppState) : Option ClarifierQuestion :=
  if s.clarifiersStarted ∧ ¬ s.clarifiersDone then CLARIFIER_QUESTIONS[s.clarifierIndex]?
  else none

/-- The value `currentClarifierValue`. -/
def currentClarifierValue (s : AppState) : RawAnswer :=
  match activeClarifier s with
  | none => .str ""
  | some q =>
    if s.clarifierAnswers.get q.field ≠ .undefined then s.clarifierAnswers.get q.field
    else .str ""

/-- The flag `clarifyNextDisabled`. -/
def clarifyNextDisabled (s : AppState) : Bool :=
  match activeClarifier s with
  | none => true
  | some q =>
    q.required &&
      (decide (currentClarifierValue s = .null) ||
        decide (currentClarifierValue s = .undefined) ||
        decide (jsTrim (currentClarifierValue s).toJSString = ""))

/-- The gate `canAdvance` of the specification: the Next button is not disabled. -/
def canAdvance (s : AppState) : Bool := !clarifyNextDisabled s

/-- The flag `canRunStep2`. -/
def canRunStep2 (s : AppState) : Bool :=
  s.parseResult.isSome && (!s.clarifiersStarted || s.clarifiersDone)

/-- The recommendations the citizen view renders as program cards (lines 800-846): `none`
when rendering throws because `recommendations` is not an array. -/
def citizenViewPrograms (s : AppState) : Option (List Recommendation) :=
  match s.evalResult with
  | none => some []
  | some evalResult => if s.infoConfirmed then evalResult.recommendations else some []

/-- The recommendations the staff view renders in its program section (lines 856 and
994-1026). -/
def staffViewPrograms (s : AppState) : List Recommendation :=
  let recommendations := (s.evalResult.bind (fun e => e.recommendations)).getD []
  if recommendations.length > 0 then recommendations else []

/-! ## The event loop: which actions the rendered page offers -/

/-- A user event on a rendered control, or the arrival of a response. -/
inductive Action where
  | setActiveTab (tab : String)
  | setText (value : String)
  | parse
  | parseOk (data : Option ParseResult)
  | parseFail
  | answer (value : String)
  | next
  | evaluate
  | evaluateOk (data : Option EvalResult)
  | evaluateFail
  | confirm
  deriving DecidableEq, Repr

/-- The values the input widget of a question can hand to `handleClarifierChange`
(lines 490-614): an option value or the empty choice for a select, `yes` or `no` for the
radio pair, any string for the other inputs (for the number input this is more than a
browser hands over, which is an upper bound on what can be recorded). -/
def widgetOffers (q : ClarifierQuestion) (value : String) : Bool :=
  if q.type = "select" then
    decide (value = "") || ((q.options.getD []).map (fun o => o.value)).contains value
  else if q.type = "number" then true
  else if q.type = "range" then true
  else if q.type = "boolean" then (YES_NO_OPTIONS.map (fun o => o.value)).contains value
  else true

/-- Whether the page rendered from `s` lets the action happen: the control is rendered and
not disabled, or a request of that kind is in flight. -/
def enabled (s : AppState) : Action → Bool
  | .setActiveTab tab => decide (tab = "citizen") || decide (tab = "staff")
  | .setText _ => decide (s.activeTab = "citizen")
  | .parse => decide (s.activeTab = "citizen") && !(s.loadingParse || (jsTrim s.text).length == 0)
  | .parseOk _ => s.loadingParse
  | .parseFail => s.loadingParse
  | .answer value =>
    decide (s.activeTab = "citizen") && s.parseResult.isSome &&
      (match activeClarifier s with
       | none => false
       | some q => widgetOffers q value)
  | .next =>
    decide (s.activeTab = "citizen") && s.parseResult.isSome && !clarifyNextDisabled s
  | .evaluate => decide (s.activeTab = "citizen") && !(s.loadingEval || !canRunStep2 s)
  | .evaluateOk _ => s.loadingEval
  | .evaluateFail => s.loadingEval
  | .confirm =>
    decide (s.activeTab = "citizen") && s.evalResult.isSome && s.parseResult.isSome &&
      !s.infoConfirmed

/-- The state after an action. -/
def perform (s : AppState) : Action → AppState
  | .setActiveTab tab => { s with activeTab := tab }
  | .setText value => { s with text := value }
  | .parse => handleParseStart s
  | .parseOk data => handleParseSuccess s data
  | .parseFail => handleParseFailure s
  | .answer value =>
    match activeClarifier s with
    | none => s
    | some q => handleClarifierChange s q.field (.str value)
  | .next => handleClarifierNext s
  | .evaluate => handleEvaluateStart s
  | .evaluateOk data => handleEvaluateSuccess s data
  | .evaluateFail => handleEvaluateFailure s
  | .confirm => { s with infoConfirmed := true }

/-- One step of the event loop, `none` when the page does not offer the action. -/
def step (s : AppState) (a : Action) : Option AppState :=
  if enabled s a then some (perform s a) else none

/-- Running a sequence of actions from a state. -/
def run : AppState → List Action → Option AppState
  | s, [] => some s
  | s, a :: rest => (step s a).bind (fun t => run t rest)

/-- The states the application can be in. -/
def Reachable (s : AppState) : Prop := ∃ trace, run AppState.initial trace = some s

/-- The value a question writes into the profile for the given answers, `none` when the
callback returns without assigning. -/
def writtenValue (clarifierAnswers : ClarifierAnswers) (q : ClarifierQuestion) :
    Option JSValue :=
  let raw := clarifierAnswers.get q.field
  if raw = .undefined ∨ raw = .null ∨ raw = .str "" then none
  else if q.type = "number" then
    if raw.toNumber ≠ .nan then some (.num raw.toNumber) else none
  else if q.type = "boolean" then
    if raw = .str "yes" then some (.bool true)
    else if raw = .str "no" then some (.bool false)
    else none
  else some raw.toValue

/-! ## The follow-up filter of the staff view (`renderStaffView`, lines 855-876) -/

/-- The lower-case form of one character under `String.prototype.toLowerCase`. The ASCII
capitals map to their small letters; U+0130 maps to `i` followed by U+0307 and U+212A to
`k`, the only characters outside ASCII whose lower-case form holds an ASCII character. Every
other character outside ASCII is left in place: its lower-case form lies outside ASCII as
well, so it takes no part in a search for an ASCII phrase. -/
def toLowerCaseChar (c : Char) : List Char :=
  if 'A' ≤ c ∧ c ≤ 'Z' then [Char.ofNat (c.toNat + 32)]
  else if c.toNat = 0x130 then ['i', Char.ofNat 0x307]
  else if c.toNat = 0x212A then ['k']
  else [c]

/-- The method `s.toLowerCase()`. -/
def jsToLowerCase (s : String) : String := ⟨s.data.flatMap toLowerCaseChar⟩

/-- Whether a character list begins with another. -/
def startsWithChars : List Char → List Char → Bool
  | _, [] => true
  | [], _ :: _ => false
  | c :: cs, p :: ps => c == p && startsWithChars cs ps

/-- Whether a character list holds another as a contiguous run. -/
def includesChars : List Char → List Char → Bool
  | [], sub => startsWithChars [] sub
  | c :: cs, sub => startsWithChars (c :: cs) sub || includesChars cs sub

/-- The method `s.includes(sub)`. -/
def jsIncludes (s sub : String) : Bool := includesChars s.data sub.data

/-- The callback of `rawFollowUps.filter(...)` (lines 865-876): `some true` to keep the
entry, `some false` to drop it, `none` when `q.toLowerCase()` throws a `TypeError` because
`q` is not a string. -/
def keepFollowUp (caseProfile : CaseProfile) (q : JSValue) : Option Bool :=
  match q with
  | .str text =>
    let lower := jsToLowerCase text
    if jsIncludes lower "insurable hours" then
      let hrs := caseProfile.get "insurable_hours_last_52_weeks"
      if hrs ≠ .null ∧ hrs ≠ .undefined ∧ hrs ≠ .str "" then some false else some true
    else some true
  | _ => none

/-- The call `rawFollowUps.filter(callback)`: the kept entries in order, `none` when the
callback throws on some entry. -/
def filterFollowUps (caseProfile : CaseProfile) : List JSValue → Option (List JSValue)
  | [] => some []
  | q :: rest =>
    match keepFollowUp caseProfile q with
    | none => none
    | some keep =>
      match filterFollowUps caseProfile rest with
      | none => none
      | some kept => some (if keep then q :: kept else kept)

/-- The value `filteredFollowUps` of `renderStaffView` as a function of the profile (`none`
for a `null` profile) and of the follow-up list. -/
def filteredFollowUpsOf (caseProfile : Option CaseProfile) (rawFollowUps : List JSValue) :
    Option (List JSValue) :=
  match caseProfile with
  | none => some rawFollowUps
  | some profile => filterFollowUps profile rawFollowUps

/-- The list `backendFollowUps` (line 258). -/
def backendFollowUps (s : AppState) : List JSValue :=
  (s.parseResult.bind (fun r => r.follow_up_questions)).getD []

/-- The value `filteredFollowUps` computed when the staff view renders; `none` when the
render throws. -/
def filteredFollowUps (s : AppState) : Option (List JSValue) :=
  filteredFollowUpsOf (s.parseResult.bind (fun r => r.case_profile)) (backendFollowUps s)

/-! ## Scenarios -/

/-- A parse response with a one-field base profile and one follow-up question. -/
def quebecResponse : ParseResult :=
  { case_profile := some [("province", .str "QC")],
    follow_up_questions := some [.str "Roughly how many insurable hours did you work?"],
    other := [] }

/-- An evaluate response with one recommendation. -/
def eiResponse : EvalResult :=
  { recommendations := some
      [ { service_id := "ei_regular", service_name := "Employment Insurance",
          eligibility_status := "need_more_info", explanation_client := none,
          explanation_staff := none, required_documents := [], rule_hits := [] } ],
    ticket_priority := .null }

/-- A citizen describes the situation, runs Step 1, answers the four required questions,
steps through the eight optional ones and saves. -/
def completedSessionTrace : List Action :=
  [ .setText "I was laid off in Ontario and I have two children.", .parse,
    .parseOk (some quebecResponse),
    .answer "ON", .next, .answer "34", .next, .answer "unemployed", .next, .next,
    .answer "2", .next, .next, .next, .next, .next, .next, .next, .next ]

/-- The completed session followed by Step 2, its response, and a look at the staff view,
without pressing the confirmation button. -/
def staffLooksBeforeConfirmTrace : List Action :=
  completedSessionTrace ++ [.evaluate, .evaluateOk (some eiResponse), .setActiveTab "staff"]

/-- A citizen runs Step 1, answers the first question, then runs Step 1 again; the second
request is still in flight. -/
def secondParseInFlightTrace : List Action :=
  [ .setText "I was laid off in Ontario and I have two children.", .parse,
    .parseOk (some quebecResponse), .answer "ON", .parse ]

/-- The completed session followed by Step 2, its response and the confirmation button. -/
def confirmedTrace : List Action :=
  completedSessionTrace ++ [.evaluate, .evaluateOk (some eiResponse), .confirm]

/-- The state a trace leads to from the initial state. -/
def stateAfter (trace : List Action) : AppState :=
  (run AppState.initial trace).getD AppState.initial

/-- The session right after a parse response, with `value` recorded for `field`. -/
def sessionWithAnswer (field value : String) : AppState :=
  handleClarifierChange (handleParseSuccess AppState.initial (some quebecResponse)) field
    (.str value)

/-- The session at question `index` after a parse response, with `value` recorded for
`field`. -/
def sessionAt (index : Nat) (field value : String) : AppState :=
  { sessionWithAnswer field value with clarifierIndex := index }

/-- The two phase flags are never both set, and once no parse request is in flight a
stored parse result outside a running session belongs to a completed session and carries
a merge of that session's answers. -/
def SessionInvariant (s : AppState) : Prop :=
  ¬ (s.clarifiersStarted = true ∧ s.clarifiersDone = true) ∧
    (s.loadingParse = false → s.clarifiersStarted = false → ∀ parseResult,
      s.parseResult = some parseResult →
        s.clarifiersDone = true ∧
          ∃ base, parseResult.case_profile = some (updatedProfile s.clarifierAnswers base))

/-- A session in which the citizen also answers the question about insurable hours (the
eleventh) before saving. -/
def hoursSessionTrace : List Action :=
  [ .setText "I was laid off in Ontario and I have two children.", .parse,
    .parseOk (some quebecResponse),
    .answer "ON", .next, .answer "34", .next, .answer "unemployed", .next, .next,
    .answer "2", .next, .next, .next, .next, .next, .next,
    .answer "300-600 hours", .next, .next, .setActiveTab "staff" ]

/-- A parse response whose follow-up list holds a number next to a string. -/
def mixedFollowUpsResponse : ParseResult :=
  { case_profile := some [("province", .str "QC")],
    follow_up_questions :=
      some [.str "Do you have your Record of Employment?", .num (.finite false 42 0)],
    other := [] }

/-- Step 1 with the mixed follow-up list as response, then a look at the staff view. -/
def mixedFollowUpsTrace : List Action :=
  [ .setText "I was laid off in Ontario and I have two children.", .parse,
    .parseOk (some mixedFollowUpsResponse), .setActiveTab "staff" ]

/-- Whether the profile holds a value for the insurable hours (line 871). -/
def hoursKnown (caseProfile : CaseProfile) : Bool :=
  decide (caseProfile.get "insurable_hours_last_52_weeks" ≠ .null ∧
    caseProfile.get "insurable_hours_last_52_weeks" ≠ .undefined ∧
    caseProfile.get "insurable_hours_last_52_weeks" ≠ .str "")

/-- Whether a follow-up text mentions the insurable hours, in any letter case. -/
def mentionsInsurableHours (text : String) : Bool :=
  jsIncludes (jsToLowerCase text) "insurable hours"

/-! ## Objects: reading after writing -/

theorem get?_set_self {α : Type} (obj : JSObject α) (key : String) (v : α) :
    JSObject.get? (JSObject.set obj key v) key = some v := by
  induction obj with
  | nil => simp [JSObject.set, JSObject.get?]
  | cons head rest ih =>
    obtain ⟨k, w⟩ := head
    by_cases h : k = key
    · simp [JSObject.set, JSObject.get?, h]
    · simp [JSObject.set, JSObject.get?, h, ih]

theorem get?_set_other {α : Type} (obj : JSObject α) (key other : String) (v : α)
    (hne : key ≠ other) :
    JSObject.get? (JSObject.set obj key v) other = JSObject.get? obj other := by
  induction obj with
  | nil => simp [JSObject.set, JSObject.get?, hne]
  | cons head rest ih =>
    obtain ⟨k, w⟩ := head
    by_cases h : k = key
    · subst h
      simp [JSObject.set, JSObject.get?, hne]
    · by_cases h2 : k = other
      · subst h2
        simp [JSObject.set, JSObject.get?, h]
      · simp [JSObject.set, JSObject.get?, h, h2, ih]

theorem set_of_get? {α : Type} (obj : JSObject α) (key : String) (v : α)
    (hget : JSObject.get? obj key = some v) : JSObject.set obj key v = obj := by
  induction obj with
  | nil => simp [JSObject.get?] at hget
  | cons head rest ih =>
    obtain ⟨k, w⟩ := head
    by_cases h : k = key
    · simp [JSObject.get?, h] at hget
      simp [JSObject.set, h, hget]
    · simp [JSObject.get?, h] at hget
      simp [JSObject.set, h, ih hget]

/-! ## The merge, question by question -/

theorem clarifierStep_eq (answers : ClarifierAnswers) (p : CaseProfile) (q : ClarifierQuestion) :
    clarifierStep answers p q =
      match writtenValue answers q with
      | some v => JSObject.set p q.field v
      | none => p := by
  unfold clarifierStep writtenValue
  simp only []
  split_ifs <;> rfl

theorem applyQuestions_cons (q : ClarifierQuestion) (qs : List ClarifierQuestion)
    (answers : ClarifierAnswers) (p : CaseProfile) :
    applyQuestions (q :: qs) answers p = applyQuestions qs answers (clarifierStep answers p q) :=
  rfl

/-- A key that no writing question addresses keeps its entry through the loop. -/
theorem applyQuestions_get?_untouched (qs : List ClarifierQuestion) (answers : ClarifierAnswers)
    (key : String) (p : CaseProfile)
    (hnone : ∀ q ∈ qs, q.field = key → writtenValue answers q = none) :
    JSObject.get? (applyQuestions qs answers p) key = JSObject.get? p key := by
  induction qs generalizing p with
  | nil => rfl
  | cons q qs ih =>
    rw [applyQuestions_cons, ih _ (fun q' hq' => hnone q' (List.mem_cons_of_mem _ hq'))]
    rw [clarifierStep_eq]
    cases hw : writtenValue answers q with
    | none => rfl
    | some v =>
      have hne : q.field ≠ key := by
        intro hf
        rw [hnone q (List.mem_cons_self _ _) hf] at hw
        cases hw
      exact get?_set_other p q.field key v hne

/-- With pairwise distinct fields, the entry of a writing question after the loop is the
value that question wrote. -/
theorem applyQuestions_get?_written (qs : List ClarifierQuestion) (answers : ClarifierAnswers)
    (hnodup : (qs.map (fun q => q.field)).Nodup) (p : CaseProfile) (q : ClarifierQuestion)
    (hq : q ∈ qs) (v : JSValue) (hw : writtenValue answers q = some v) :
    JSObject.get? (applyQuestions qs answers p) q.field = some v := by
  induction qs generalizing p with
  | nil => cases hq
  | cons q0 qs ih =>
    rw [List.map_cons, List.nodup_cons] at hnodup
    rw [applyQuestions_cons]
    rcases List.mem_cons.mp hq with heq | hmem
    · subst heq
      rw [applyQuestions_get?_untouched]
      · rw [clarifierStep_eq, hw]
        exact get?_set_self p q.field v
      · intro q' hq' hf
        exact absurd (hf ▸ List.mem_map_of_mem (fun q => q.field) hq') hnodup.1
    · exact ih hnodup.2 _ hmem

/-- A profile that already holds what every question writes is left as it is. -/
theorem applyQuestions_fixed (qs : List ClarifierQuestion) (answers : ClarifierAnswers)
    (p : CaseProfile)
    (hheld : ∀ q ∈ qs, ∀ v, writtenValue answers q = some v → JSObject.get? p q.field = some v) :
    applyQuestions qs answers p = p := by
  induction qs with
  | nil => rfl
  | cons q qs ih =>
    rw [applyQuestions_cons]
    have hstep : clarifierStep answers p q = p := by
      rw [clarifierStep_eq]
      cases hw : writtenValue answers q with
      | none => rfl
      | some v => exact set_of_get? p q.field v (hheld q (List.mem_cons_self _ _) v hw)
    rw [hstep]
    exact ih (fun q' hq' => hheld q' (List.mem_cons_of_mem _ hq'))

/-- The fields of the catalog are pairwise distinct. -/
theorem catalog_fields_nodup : (CLARIFIER_QUESTIONS.map (fun q => q.field)).Nodup := by
  decide

/-! ## The merge reducer: overwrite, idempotence, replacement -/

/-- C1, overwrite invariant of the merge reducer: for every base profile, every answers map
and every field (in particular the field of every catalog question), if the answer at that
field is empty (the empty string, `null` or `undefined`) then the merged profile has at that
field what the base profile has: the same entry, or no entry in both. -/
theorem empty_answer_keeps_base_value (base : CaseProfile) (answers : ClarifierAnswers)
    (field : String)
    (hempty : answers.get field = .str "" ∨ answers.get field = .null ∨
      answers.get field = .undefined) :
    JSObject.get? (updatedProfile answers base) field = JSObject.get? base field ∧
      (updatedProfile answers base).get field = base.get field := by
  have hkeep : JSObject.get? (updatedProfile answers base) field = JSObject.get? base field := by
    apply applyQuestions_get?_untouched
    intro q _ hf
    subst hf
    unfold writtenValue
    have h : answers.get q.field = .undefined ∨ answers.get q.field = .null ∨
        answers.get q.field = .str "" := by
      rcases hempty with h | h | h
      · exact Or.inr (Or.inr h)
      · exact Or.inr (Or.inl h)
      · exact Or.inl h
    simp only [h, if_true]
  exact ⟨hkeep, by unfold CaseProfile.get; rw [hkeep]⟩

/-- The overwrite invariant at a base profile with an age and an empty age answer. -/
theorem empty_answer_keeps_base_value_witness :
    (JSObject.get? (updatedProfile [("age", .str "")] [("age", .num (.finite false 41 0))])
        "age" = some (.num (.finite false 41 0))) ∧
      (updatedProfile [("age", .str "")] [("age", .num (.finite false 41 0))]).get "age" =
        .num (.finite false 41 0) :=
  empty_answer_keeps_base_value [("age", .num (.finite false 41 0))] [("age", .str "")] "age"
    (Or.inl (by decide))

/-- C2, idempotence of the merge reducer: merging the same answers into an already merged
profile gives the merged profile again, `merge (merge base answers) answers = merge base
answers`, for every base profile and every answers map; and so applying
`applyClarifiersToProfile` to a state twice is the same as applying it once. -/
theorem merge_idempotent (base : CaseProfile) (answers : ClarifierAnswers) (s : AppState) :
    updatedProfile answers (updatedProfile answers base) = updatedProfile answers base ∧
      applyClarifiersToProfile (applyClarifiersToProfile s) = applyClarifiersToProfile s := by
  have hmerge : ∀ (answers : ClarifierAnswers) (base : CaseProfile),
      updatedProfile answers (updatedProfile answers base) = updatedProfile answers base := by
    intro answers base
    unfold updatedProfile
    apply applyQuestions_fixed
    intro q hq v hw
    exact applyQuestions_get?_written CLARIFIER_QUESTIONS answers catalog_fields_nodup base q
      hq v hw
  refine ⟨hmerge answers base, ?_⟩
  cases hparse : s.parseResult <;> simp [applyClarifiersToProfile, hparse, hmerge]

/-- C3 as stated fails: the boolean question `is_single_parent` with the non-empty answer
`maybe` leaves the base value in place, so the merged value follows the base profile
(`true` from one base, `false` from another) and not the answer. -/
theorem nonempty_answer_can_leave_base_value :
    (⟨"is_single_parent", "is_single_parent",
        "Are you the only adult primarily caring for the children (a single parent)?",
        "boolean", false, none, none, none⟩ : ClarifierQuestion) ∈ CLARIFIER_QUESTIONS ∧
      ClarifierAnswers.get [("is_single_parent", .str "maybe")] "is_single_parent" =
        .str "maybe" ∧
      (updatedProfile [("is_single_parent", .str "maybe")]
        [("is_single_parent", .bool true)]).get "is_single_parent" = .bool true ∧
      (updatedProfile [("is_single_parent", .str "maybe")]
        [("is_single_parent", .bool false)]).get "is_single_parent" = .bool false := by
  decide

/-- C3 amended: for every base profile, every catalog question `q` and every answers map in
which the answer at `q.field` is a non-empty string that the question's type accepts
(`Number(raw)` is not `NaN` for a number question, `yes` or `no` for a boolean question, any
string for the other types), the merge replaces the entry at `q.field`: the merged value is
the number, the boolean or the string given by the answer, whatever the base profile held. -/
theorem accepted_answer_replaces_base_value (base : CaseProfile) (answers : ClarifierAnswers)
    (q : ClarifierQuestion) (raw : String) (hq : q ∈ CLARIFIER_QUESTIONS)
    (hraw : answers.get q.field = .str raw) (hnonempty : raw ≠ "")
    (hnumber : q.type = "number" → StringToNumber raw ≠ .nan)
    (hboolean : q.type = "boolean" → raw = "yes" ∨ raw = "no") :
    JSObject.get? (updatedProfile answers base) q.field =
      some (if q.type = "number" then .num (StringToNumber raw)
            else if q.type = "boolean" then .bool (decide (raw = "yes"))
            else .str raw) := by
  apply applyQuestions_get?_written CLARIFIER_QUESTIONS answers catalog_fields_nodup base q hq
  unfold writtenValue
  simp only [hraw, RawAnswer.toNumber, RawAnswer.toValue]
  have h1 : ¬ ((RawAnswer.str raw = .undefined) ∨ (RawAnswer.str raw = .null) ∨
      (RawAnswer.str raw = .str "")) := by
    simp [hnonempty]
  rw [if_neg h1]
  by_cases hn : q.type = "number"
  · simp [hn, hnumber hn]
  · by_cases hb : q.type = "boolean"
    · rcases hboolean hb with h | h <;> subst h <;> simp [hb]
    · simp [hn, hb]

/-- The replacement at the number question `age` with the answer `200` over a base age of 41. -/
theorem accepted_answer_replaces_base_value_witness :
    JSObject.get? (updatedProfile [("age", .str "200")] [("age", .num (.finite false 41 0))])
        "age" = some (.num (.finite false 200 0)) :=
  accepted_answer_replaces_base_value [("age", .num (.finite false 41 0))]
    [("age", .str "200")]
    ⟨"age", "age", "How old are you?", "number", true, none, some 16, some 80⟩ "200"
    (by decide) (by decide) (by decide) (by decide) (by decide)


/-! ## The event loop: invariants of reachable states -/

/-- A property that holds initially and is kept by every offered action holds after every
run. -/
theorem run_preserves (P : AppState → Prop)
    (hstep : ∀ s a, P s → enabled s a = true → P (perform s a)) :
    ∀ (trace : List Action) (s t : AppState), P s → run s trace = some t → P t := by
  intro trace
  induction trace with
  | nil =>
    intro s t hs hrun
    simp only [run, Option.some.injEq] at hrun
    exact hrun ▸ hs
  | cons a rest ih =>
    intro s t hs hrun
    unfold run step at hrun
    by_cases hen : enabled s a = true
    · simp only [hen, if_true, Option.some_bind] at hrun
      exact ih (perform s a) t (hstep s a hs hen) hrun
    · simp [hen] at hrun

theorem reachable_of (P : AppState → Prop) (hinit : P AppState.initial)
    (hstep : ∀ s a, P s → enabled s a = true → P (perform s a)) :
    ∀ s, Reachable s → P s := by
  rintro s ⟨trace, hrun⟩
  exact run_preserves P hstep trace AppState.initial s hinit hrun

theorem catalog_length : CLARIFIER_QUESTIONS.length = 12 := rfl

/-- No handler moves the index past the last question. -/
theorem perform_index_lt (s : AppState) (a : Action)
    (hs : s.clarifierIndex < CLARIFIER_QUESTIONS.length) :
    (perform s a).clarifierIndex < CLARIFIER_QUESTIONS.length := by
  rw [catalog_length] at hs ⊢
  cases a with
  | setActiveTab tab => exact hs
  | setText value => exact hs
  | parse =>
    simp only [perform, handleParseStart]
    split_ifs
    · exact hs
    · simp
  | parseOk data => simp [perform, handleParseSuccess]
  | parseFail => exact hs
  | answer value =>
    simp only [perform]
    cases activeClarifier s <;> exact hs
  | next =>
    simp only [perform, handleClarifierNext, catalog_length]
    split_ifs with h
    · exact hs
    · simp only []
      omega
  | evaluate =>
    simp only [perform, handleEvaluateStart]
    cases profileForEval s <;> exact hs
  | evaluateOk data => exact hs
  | evaluateFail => exact hs
  | confirm => exact hs

/-! ## What Step 2 sends -/

/-- C4, the code at the failing trace: after Step 1, one recorded answer and a second click
on Step 1, no session was ever completed (the trace holds no Next click and
`clarifiersDone` is false), yet the Step 2 button is offered while the second parse request
is in flight, and the profile `handleEvaluate` puts in the request body is the base profile
of the first response, without the recorded answer `ON`; clicking sends it. -/
theorem step2_offered_before_any_session_completes :
    Action.next ∉ secondParseInFlightTrace ∧
      run AppState.initial secondParseInFlightTrace =
        some (stateAfter secondParseInFlightTrace) ∧
      (stateAfter secondParseInFlightTrace).loadingParse = true ∧
      (stateAfter secondParseInFlightTrace).clarifiersDone = false ∧
      (stateAfter secondParseInFlightTrace).clarifierAnswers.get "province" = .str "ON" ∧
      canRunStep2 (stateAfter secondParseInFlightTrace) = true ∧
      (stateAfter secondParseInFlightTrace).loadingEval = false ∧
      enabled (stateAfter secondParseInFlightTrace) .evaluate = true ∧
      profileForEval (stateAfter secondParseInFlightTrace) =
        some [("province", .str "QC")] ∧
      (step (stateAfter secondParseInFlightTrace) .evaluate).map (fun t => t.loadingEval) =
        some true := by
  decide

theorem sessionInvariant_perform (s : AppState) (a : Action) (hs : SessionInvariant s) :
    SessionInvariant (perform s a) := by
  obtain ⟨hflags, hmerged⟩ := hs
  cases a with
  | setActiveTab tab => exact ⟨hflags, hmerged⟩
  | setText value => exact ⟨hflags, hmerged⟩
  | parse =>
    simp only [perform, handleParseStart]
    split_ifs
    · exact ⟨hflags, hmerged⟩
    · exact ⟨by simp, by simp⟩
  | parseOk data =>
    exact ⟨by simp [perform, handleParseSuccess], by simp [perform, handleParseSuccess]⟩
  | parseFail =>
    exact ⟨by simp [perform, handleParseFailure], by simp [perform, handleParseFailure]⟩
  | answer value =>
    simp only [perform]
    cases hactive : activeClarifier s with
    | none => exact ⟨hflags, hmerged⟩
    | some q =>
      have hstarted : s.clarifiersStarted = true := by
        unfold activeClarifier at hactive
        split_ifs at hactive with h
        exact h.1
      exact ⟨hflags, by simp [handleClarifierChange, hstarted]⟩
  | next =>
    simp only [perform, handleClarifierNext]
    split_ifs with hlast
    · refine ⟨by simp, ?_⟩
      intro _ _ parseResult hparse
      refine ⟨rfl, ?_⟩
      cases hprev : s.parseResult with
      | none => simp [applyClarifiersToProfile, hprev] at hparse
      | some prev =>
        simp only [applyClarifiersToProfile, hprev, Option.some.injEq] at hparse
        exact ⟨prev.case_profile.getD [], by rw [← hparse]; rfl⟩
    · exact ⟨hflags, hmerged⟩
  | evaluate =>
    simp only [perform, handleEvaluateStart]
    cases profileForEval s <;> exact ⟨hflags, hmerged⟩
  | evaluateOk data => exact ⟨hflags, hmerged⟩
  | evaluateFail => exact ⟨hflags, hmerged⟩
  | confirm => exact ⟨hflags, hmerged⟩

/-- Outside the window in which a parse request is in flight, the profile Step 2 sends is
a merged one: in every reachable state with `loadingParse` false in which the Step 2 button
is offered, the session is completed and the profile `handleEvaluate` sends is the merge
of that session's answers into some profile. -/
theorem step2_sends_merged_profile_when_no_parse_in_flight (s : AppState)
    (hreach : Reachable s) (hidle : s.loadingParse = false)
    (hoffered : enabled s .evaluate = true) (profile : CaseProfile)
    (hsent : profileForEval s = some profile) :
    s.clarifiersDone = true ∧ ∃ base, profile = updatedProfile s.clarifierAnswers base := by
  have hinv : SessionInvariant s :=
    reachable_of SessionInvariant
      ⟨by decide, fun _ _ parseResult h => by simp [AppState.initial] at h⟩
      (fun s a hs _ => sessionInvariant_perform s a hs) s hreach
  obtain ⟨hflags, hmerged⟩ := hinv
  cases hparse : s.parseResult with
  | none => simp [profileForEval, hparse] at hsent
  | some parseResult =>
    simp only [profileForEval, hparse] at hsent
    have hstep2 : canRunStep2 s = true := by
      simp only [enabled, Bool.and_eq_true, Bool.not_eq_true', Bool.or_eq_false_iff] at hoffered
      simpa using hoffered.2.2
    have hnotstarted : s.clarifiersStarted = false := by
      simp only [canRunStep2, hparse, Option.isSome_some, Bool.true_and, Bool.or_eq_true,
        Bool.not_eq_true'] at hstep2
      rcases hstep2 with h | h
      · exact h
      · cases hst : s.clarifiersStarted with
        | false => rfl
        | true => exact absurd ⟨hst, h⟩ hflags
    obtain ⟨hdone, base, hbase⟩ := hmerged hidle hnotstarted parseResult hparse
    refine ⟨hdone, base, ?_⟩
    rw [hbase] at hsent
    exact (Option.some.inj hsent).symm

/-- The profile sent after a completed session. -/
theorem step2_sends_merged_profile_when_no_parse_in_flight_witness :
    (stateAfter completedSessionTrace).clarifiersDone = true ∧
      ∃ base, [("province", JSValue.str "ON"), ("age", .num (.finite false 34 0)),
          ("employment_status", .str "unemployed"),
          ("children_count", .num (.finite false 2 0))] =
        updatedProfile (stateAfter completedSessionTrace).clarifierAnswers base :=
  step2_sends_merged_profile_when_no_parse_in_flight (stateAfter completedSessionTrace)
    ⟨completedSessionTrace, by decide⟩ (by decide) (by decide) _ (by decide)

/-! ## The confirmation gate -/

/-- C5 as stated fails: after a completed session, Step 2 and its response, with the
confirmation button never pressed, `infoConfirmed` is false and the staff view renders the
recommendation of the response. -/
theorem staff_view_shows_programs_before_confirmation :
    run AppState.initial staffLooksBeforeConfirmTrace =
        some (stateAfter staffLooksBeforeConfirmTrace) ∧
      (stateAfter staffLooksBeforeConfirmTrace).activeTab = "staff" ∧
      (stateAfter staffLooksBeforeConfirmTrace).infoConfirmed = false ∧
      staffViewPrograms (stateAfter staffLooksBeforeConfirmTrace) =
        [ { service_id := "ei_regular", service_name := "Employment Insurance",
            eligibility_status := "need_more_info", explanation_client := none,
            explanation_staff := none, required_documents := [], rule_hits := [] } ] := by
  decide

/-- C5 amended: for every application state in which `infoConfirmed` is false the citizen
view renders no program recommendation; the staff view has no gate and renders every
recommendation of `evalResult.recommendations`, whatever `infoConfirmed` is. -/
theorem citizen_view_hides_programs_until_confirmed (s : AppState)
    (hclosed : s.infoConfirmed = false) :
    citizenViewPrograms s = some [] ∧
      staffViewPrograms s = (s.evalResult.bind (fun e => e.recommendations)).getD [] := by
  constructor
  · unfold citizenViewPrograms
    cases s.evalResult <;> simp [hclosed]
  · unfold staffViewPrograms
    simp only []
    split_ifs with h
    · rfl
    · have hlen : ((s.evalResult.bind (fun e => e.recommendations)).getD []).length = 0 := by
        omega
      exact (List.length_eq_zero.mp hlen).symm

/-- The gate at a state that holds an evaluate response and was not confirmed. -/
theorem citizen_view_hides_programs_until_confirmed_witness :
    citizenViewPrograms { AppState.initial with evalResult := some eiResponse } = some [] ∧
      staffViewPrograms { AppState.initial with evalResult := some eiResponse } =
        (Option.bind (some eiResponse) (fun e => e.recommendations)).getD [] :=
  citizen_view_hides_programs_until_confirmed
    { AppState.initial with evalResult := some eiResponse } rfl

/-- C6, reset points close the gate: right after a parse request starts with non-blank text
the session is NotStarted (`clarifiersStarted` and `clarifiersDone` false, index 0), the gate
`infoConfirmed` is false and `evalResult` is discarded; right after a parse response starts
a new session, and right after an evaluate request begins with an existing `case_profile`,
`infoConfirmed` is false, whatever the state was before. -/
theorem reset_points_close_the_gate (s₁ s₂ s₃ : AppState) (data : Option ParseResult)
    (htext : jsTrim s₁.text ≠ "") (hprofile : (profileForEval s₃).isSome = true) :
    ((handleParseStart s₁).clarifiersStarted = false ∧
        (handleParseStart s₁).clarifiersDone = false ∧
        (handleParseStart s₁).clarifierIndex = 0 ∧
        (handleParseStart s₁).infoConfirmed = false ∧
        (handleParseStart s₁).evalResult = none) ∧
      ((handleParseSuccess s₂ data).clarifiersStarted = true ∧
        (handleParseSuccess s₂ data).clarifiersDone = false ∧
        (handleParseSuccess s₂ data).clarifierIndex = 0 ∧
        (handleParseSuccess s₂ data).infoConfirmed = false) ∧
      ((handleEvaluateStart s₃).loadingEval = true ∧
        (handleEvaluateStart s₃).infoConfirmed = false) := by
  refine ⟨?_, ?_, ?_⟩
  · simp [handleParseStart, htext]
  · simp [handleParseSuccess]
  · unfold handleEvaluateStart
    cases h : profileForEval s₃ with
    | none => simp [h] at hprofile
    | some profile => simp

/-- The reset points applied to a state whose gate is open and which holds an evaluate response. -/
theorem reset_points_close_the_gate_witness :
    ((stateAfter confirmedTrace).infoConfirmed = true ∧
        (stateAfter confirmedTrace).evalResult = some eiResponse ∧
        (stateAfter confirmedTrace).clarifiersDone = true) ∧
      (((handleParseStart (stateAfter confirmedTrace)).clarifiersStarted = false ∧
        (handleParseStart (stateAfter confirmedTrace)).clarifiersDone = false ∧
        (handleParseStart (stateAfter confirmedTrace)).clarifierIndex = 0 ∧
        (handleParseStart (stateAfter confirmedTrace)).infoConfirmed = false ∧
        (handleParseStart (stateAfter confirmedTrace)).evalResult = none) ∧
      ((handleParseSuccess (stateAfter confirmedTrace) none).clarifiersStarted = true ∧
        (handleParseSuccess (stateAfter confirmedTrace) none).clarifiersDone = false ∧
        (handleParseSuccess (stateAfter confirmedTrace) none).clarifierIndex = 0 ∧
        (handleParseSuccess (stateAfter confirmedTrace) none).infoConfirmed = false) ∧
      ((handleEvaluateStart (stateAfter confirmedTrace)).loadingEval = true ∧
        (handleEvaluateStart (stateAfter confirmedTrace)).infoConfirmed = false)) :=
  ⟨by decide,
    reset_points_close_the_gate (stateAfter confirmedTrace) (stateAfter confirmedTrace)
      (stateAfter confirmedTrace) none (by decide) (by decide)⟩

/-! ## The advance gate -/

theorem jsTrim_empty : jsTrim "" = "" := rfl

/-- C7 as stated fails: with the required question `province` current and the raw answer
`" "`, which is not the empty string, the Next button is disabled. -/
theorem blank_answer_blocks_required_question :
    activeClarifier (sessionWithAnswer "province" " ") = CLARIFIER_QUESTIONS[0]? ∧
      (CLARIFIER_QUESTIONS[0]?).map (fun q => (q.field, q.required)) =
        some ("province", true) ∧
      (sessionWithAnswer "province" " ").clarifierAnswers.get "province" = .str " " ∧
      RawAnswer.str " " ≠ RawAnswer.str "" ∧
      canAdvance (sessionWithAnswer "province" " ") = false := by
  decide

/-- C7 amended: for every question `q` taken as the current question and every answers map,
if `q` is required and its raw answer is `undefined`, `null` or a string that is empty after
trimming white space, `canAdvance` is false; in every other case (`q` is not required, or
its raw answer is a string with a character that is not white space) `canAdvance` is true,
whatever the answer holds. -/
theorem canAdvance_false_iff_required_and_blank (s : AppState) (q : ClarifierQuestion)
    (hactive : activeClarifier s = some q) :
    (q.required = true ∧
        (s.clarifierAnswers.get q.field = .undefined ∨ s.clarifierAnswers.get q.field = .null ∨
          ∃ raw, s.clarifierAnswers.get q.field = .str raw ∧ jsTrim raw = "") →
      canAdvance s = false) ∧
    (¬ (q.required = true ∧
        (s.clarifierAnswers.get q.field = .undefined ∨ s.clarifierAnswers.get q.field = .null ∨
          ∃ raw, s.clarifierAnswers.get q.field = .str raw ∧ jsTrim raw = "")) →
      canAdvance s = true) := by
  unfold canAdvance clarifyNextDisabled currentClarifierValue
  simp only [hactive]
  cases hraw : s.clarifierAnswers.get q.field with
  | undefined => cases hreq : q.required <;> simp [RawAnswer.toJSString, jsTrim_empty]
  | null => cases hreq : q.required <;> simp [RawAnswer.toJSString]
  | str raw => cases hreq : q.required <;> simp [RawAnswer.toJSString]

/-- Scenario A: `province` with the answer `""` cannot advance, with the answer `ON` it can. -/
theorem canAdvance_false_iff_required_and_blank_witness :
    canAdvance (sessionWithAnswer "province" "") = false ∧
      canAdvance (sessionWithAnswer "province" "ON") = true :=
  ⟨(canAdvance_false_iff_required_and_blank (sessionWithAnswer "province" "")
      ⟨"province", "province", "In which province or territory do you live?", "select", true,
        some PROVINCE_OPTIONS, none, none⟩ (by decide)).1
      ⟨rfl, Or.inr (Or.inr ⟨"", by decide, by decide⟩)⟩,
    (canAdvance_false_iff_required_and_blank (sessionWithAnswer "province" "ON")
      ⟨"province", "province", "In which province or territory do you live?", "select", true,
        some PROVINCE_OPTIONS, none, none⟩ (by decide)).2
      (by
        have hget : (sessionWithAnswer "province" "ON").clarifierAnswers.get "province" =
            .str "ON" := by decide
        rintro ⟨_, h | h | ⟨raw, h1, h2⟩⟩
        · exact absurd (hget.symm.trans h) (by decide)
        · exact absurd (hget.symm.trans h) (by decide)
        · have h3 : RawAnswer.str "ON" = .str raw := hget.symm.trans h1
          cases h3
          exact absurd h2 (by decide))⟩

/-- C8 as stated fails: with the required select question `province` current and the answer
`ZZ`, which is none of its options, and with the required number question `age` current and
the answer `abc`, which `Number` turns into `NaN`, `canAdvance` is true and Next moves the
session to the following question. -/
theorem failed_coercion_does_not_block_advance :
    (activeClarifier (sessionAt 0 "province" "ZZ")).map
        (fun q => (q.field, q.type, q.required)) = some ("province", "select", true) ∧
      "ZZ" ∉ PROVINCE_OPTIONS.map (fun o => o.value) ∧
      canAdvance (sessionAt 0 "province" "ZZ") = true ∧
      (handleClarifierNext (sessionAt 0 "province" "ZZ")).clarifierIndex = 1 ∧
      (activeClarifier (sessionAt 1 "age" "abc")).map
        (fun q => (q.field, q.type, q.required)) = some ("age", "number", true) ∧
      StringToNumber "abc" = .nan ∧
      canAdvance (sessionAt 1 "age" "abc") = true ∧
      (handleClarifierNext (sessionAt 1 "age" "abc")).clarifierIndex = 2 := by
  decide

/-- C8 amended: advancing is not refused when coercion fails. For every question taken as
the current question whose raw answer is a string with a character that is not white space,
whether or not that answer passes the coercion of its type, `canAdvance` is true, the Next
button acts, and the session moves to the next question or, from the last one, to Completed. -/
theorem nonblank_answer_lets_session_advance (s : AppState) (q : ClarifierQuestion)
    (raw : String) (hactive : activeClarifier s = some q)
    (hraw : s.clarifierAnswers.get q.field = .str raw) (hnonblank : jsTrim raw ≠ "") :
    canAdvance s = true ∧
      (s.activeTab = "citizen" → s.parseResult.isSome = true →
        step s .next = some (handleClarifierNext s)) ∧
      ((s.clarifierIndex < CLARIFIER_QUESTIONS.length - 1 ∧
          (handleClarifierNext s).clarifierIndex = s.clarifierIndex + 1 ∧
          (handleClarifierNext s).clarifiersStarted = true ∧
          (handleClarifierNext s).clarifiersDone = false) ∨
        (s.clarifierIndex = CLARIFIER_QUESTIONS.length - 1 ∧
          (handleClarifierNext s).clarifiersStarted = false ∧
          (handleClarifierNext s).clarifiersDone = true)) := by
  have hadv : clarifyNextDisabled s = false := by
    unfold clarifyNextDisabled currentClarifierValue
    simp [hactive, hraw, RawAnswer.toJSString, hnonblank]
  have hphase : s.clarifiersStarted = true ∧ s.clarifiersDone = false ∧
      s.clarifierIndex < CLARIFIER_QUESTIONS.length := by
    unfold activeClarifier at hactive
    split_ifs at hactive with h
    have hlt := (List.getElem?_eq_some_iff.mp hactive).1
    exact ⟨h.1, by simpa using h.2, hlt⟩
  obtain ⟨hstarted, hdone, hlt⟩ := hphase
  refine ⟨by simp [canAdvance, hadv], ?_, ?_⟩
  · intro htab hparse
    simp [step, enabled, perform, htab, hparse, hadv]
  · rw [catalog_length] at hlt ⊢
    by_cases hlast : s.clarifierIndex < 11
    · left
      have hnot : ¬ (s.clarifierIndex ≥ 12 - 1) := by omega
      simp [handleClarifierNext, catalog_length, hnot, hstarted, hdone]
      omega
    · right
      have hge : s.clarifierIndex ≥ 12 - 1 := by omega
      simp [handleClarifierNext, catalog_length, hge]
      omega

/-- The advance at the required number question `age` with the answer `abc`. -/
theorem nonblank_answer_lets_session_advance_witness :
    canAdvance (sessionAt 1 "age" "abc") = true ∧
      ((sessionAt 1 "age" "abc").activeTab = "citizen" →
        (sessionAt 1 "age" "abc").parseResult.isSome = true →
        step (sessionAt 1 "age" "abc") .next =
          some (handleClarifierNext (sessionAt 1 "age" "abc"))) ∧
      (((sessionAt 1 "age" "abc").clarifierIndex < CLARIFIER_QUESTIONS.length - 1 ∧
          (handleClarifierNext (sessionAt 1 "age" "abc")).clarifierIndex =
            (sessionAt 1 "age" "abc").clarifierIndex + 1 ∧
          (handleClarifierNext (sessionAt 1 "age" "abc")).clarifiersStarted = true ∧
          (handleClarifierNext (sessionAt 1 "age" "abc")).clarifiersDone = false) ∨
        ((sessionAt 1 "age" "abc").clarifierIndex = CLARIFIER_QUESTIONS.length - 1 ∧
          (handleClarifierNext (sessionAt 1 "age" "abc")).clarifiersStarted = false ∧
          (handleClarifierNext (sessionAt 1 "age" "abc")).clarifiersDone = true)) :=
  nonblank_answer_lets_session_advance (sessionAt 1 "age" "abc")
    ⟨"age", "age", "How old are you?", "number", true, none, some 16, some 80⟩ "abc"
    (by decide) (by decide) (by decide)

/-! ## The advance transition and the index -/

/-- C9, the advance transition: from InProgress(i) over the catalog of n questions,
`handleClarifierNext` gives, if i < n-1, the same state with index i+1 (still in progress,
answers map and parse result with its case profile unchanged), and if i = n-1, the same
state with `clarifiersDone` true, `clarifiersStarted` false and, in the parse result, the
`case_profile` replaced by one application of the merge to the previous `case_profile` (the
empty object when there was none) and the final answers map. -/
theorem next_advances_or_completes_with_one_merge (s : AppState)
    (hstarted : s.clarifiersStarted = true) (hdone : s.clarifiersDone = false) :
    (s.clarifierIndex < CLARIFIER_QUESTIONS.length - 1 →
      handleClarifierNext s = { s with clarifierIndex := s.clarifierIndex + 1 } ∧
        (handleClarifierNext s).clarifiersStarted = true ∧
        (handleClarifierNext s).clarifiersDone = false ∧
        (handleClarifierNext s).clarifierAnswers = s.clarifierAnswers ∧
        (handleClarifierNext s).parseResult = s.parseResult) ∧
    (s.clarifierIndex = CLARIFIER_QUESTIONS.length - 1 →
      handleClarifierNext s =
        { s with
          parseResult := s.parseResult.map (fun prev =>
            { prev with
              case_profile :=
                some (updatedProfile s.clarifierAnswers (prev.case_profile.getD [])) }),
          clarifiersDone := true, clarifiersStarted := false } ∧
      ∀ prev, s.parseResult = some prev →
        (handleClarifierNext s).parseResult =
          some { prev with
            case_profile :=
              some (updatedProfile s.clarifierAnswers (prev.case_profile.getD [])) }) := by
  constructor
  · intro hlt
    have hnot : ¬ (s.clarifierIndex ≥ CLARIFIER_QUESTIONS.length - 1) := by omega
    simp [handleClarifierNext, hnot, hstarted, hdone]
  · intro hlast
    have hge : s.clarifierIndex ≥ CLARIFIER_QUESTIONS.length - 1 := by omega
    constructor
    · cases hparse : s.parseResult <;>
        simp [handleClarifierNext, hge, applyClarifiersToProfile, hparse]
    · intro prev hparse
      simp [handleClarifierNext, hge, applyClarifiersToProfile, hparse]

/-- The advance transition at the first question and at the last one. -/
theorem next_advances_or_completes_with_one_merge_witness :
    (handleClarifierNext (sessionAt 0 "province" "ON") =
        { sessionAt 0 "province" "ON" with clarifierIndex := 1 }) ∧
      (handleClarifierNext (sessionAt 11 "residency_status" "other")).parseResult =
        some { quebecResponse with
          case_profile := some [("province", .str "QC"), ("residency_status", .str "other")] } :=
  ⟨((next_advances_or_completes_with_one_merge (sessionAt 0 "province" "ON") rfl rfl).1
      (by decide)).1,
    (((next_advances_or_completes_with_one_merge (sessionAt 11 "residency_status" "other")
        rfl rfl).2 (by decide)).2 quebecResponse rfl).trans (by decide)⟩

/-- C10, index invariant of the session state machine: in every state reachable from the
initial state through the actions the page offers (among them parse start, parse success,
parse failure, record answer and Next), `clarifierIndex`, a natural number, is below
`CLARIFIER_QUESTIONS.length`, so while the session is in progress the current question
`CLARIFIER_QUESTIONS[clarifierIndex]` is defined. -/
theorem clarifierIndex_in_range (s : AppState) (hreach : Reachable s) :
    0 ≤ s.clarifierIndex ∧ s.clarifierIndex < CLARIFIER_QUESTIONS.length ∧
      (s.clarifiersStarted = true → s.clarifiersDone = false →
        ∃ q, CLARIFIER_QUESTIONS[s.clarifierIndex]? = some q ∧ activeClarifier s = some q) := by
  have hlt : s.clarifierIndex < CLARIFIER_QUESTIONS.length :=
    reachable_of (fun s => s.clarifierIndex < CLARIFIER_QUESTIONS.length) (by decide)
      (fun s a hs _ => perform_index_lt s a hs) s hreach
  refine ⟨Nat.zero_le _, hlt, ?_⟩
  intro hstarted hdone
  refine ⟨CLARIFIER_QUESTIONS[s.clarifierIndex], List.getElem?_eq_getElem hlt, ?_⟩
  simp [activeClarifier, hstarted, hdone, List.getElem?_eq_getElem hlt]

/-- The index invariant at the end of a completed session. -/
theorem clarifierIndex_in_range_witness :
    Reachable (stateAfter completedSessionTrace) ∧
      (stateAfter completedSessionTrace).clarifierIndex = 11 ∧
      (stateAfter completedSessionTrace).clarifierIndex < CLARIFIER_QUESTIONS.length :=
  ⟨⟨completedSessionTrace, by decide⟩, by decide,
    (clarifierIndex_in_range (stateAfter completedSessionTrace)
      ⟨completedSessionTrace, by decide⟩).2.1⟩

/-! ## Starting a session and recording answers -/

/-- C11, starting a session clears every answer: for every prior state and every parse
response, after the response arrives the session is InProgress(0) and the answers map is
the all-empty map: it has exactly one entry per catalog field, in catalog order, every
catalog field reads as the empty string and no entry holds anything else. The map does not
depend on the prior state, so no answer of an earlier session is visible (Scenario E). -/
theorem parse_response_clears_answers (s : AppState) (data : Option ParseResult) :
    (handleParseSuccess s data).clarifiersStarted = true ∧
      (handleParseSuccess s data).clarifiersDone = false ∧
      (handleParseSuccess s data).clarifierIndex = 0 ∧
      activeClarifier (handleParseSuccess s data) = CLARIFIER_QUESTIONS[0]? ∧
      (handleParseSuccess s data).clarifierAnswers = emptyAnswers ∧
      (handleParseSuccess s data).clarifierAnswers.map (fun entry => entry.1) =
        CLARIFIER_QUESTIONS.map (fun q => q.field) ∧
      (∀ q ∈ CLARIFIER_QUESTIONS,
        (handleParseSuccess s data).clarifierAnswers.get q.field = .str "") ∧
      (∀ entry ∈ (handleParseSuccess s data).clarifierAnswers, entry.2 = RawAnswer.str "") := by
  refine ⟨rfl, rfl, rfl, rfl, rfl, ?_, ?_, ?_⟩
  · show emptyAnswers.map (fun entry => entry.1) = CLARIFIER_QUESTIONS.map (fun q => q.field)
    decide
  · show ∀ q ∈ CLARIFIER_QUESTIONS, ClarifierAnswers.get emptyAnswers q.field = .str ""
    decide
  · show ∀ entry ∈ emptyAnswers, entry.2 = RawAnswer.str ""
    decide

/-- Scenario E: a parse response that arrives on top of a completed session, whose answers
map holds `ON` for `province`, leaves the empty string there. -/
theorem parse_response_clears_answers_witness :
    (stateAfter completedSessionTrace).clarifierAnswers.get "province" = .str "ON" ∧
      (handleParseSuccess (stateAfter completedSessionTrace)
        (some quebecResponse)).clarifierAnswers.get "province" = .str "" :=
  ⟨by decide,
    (parse_response_clears_answers (stateAfter completedSessionTrace)
      (some quebecResponse)).2.2.2.2.2.2.1
      ⟨"province", "province", "In which province or territory do you live?", "select", true,
        some PROVINCE_OPTIONS, none, none⟩ (by decide)⟩

/-- C12 as stated fails: in the initial state, whose phase is NotStarted, and in the state
after a completed session, `handleClarifierChange` writes the value into the answers map. -/
theorem recording_outside_a_session_changes_answers :
    (AppState.initial.clarifiersStarted = false ∧ AppState.initial.clarifiersDone = false) ∧
      AppState.initial.clarifierAnswers = [] ∧
      (handleClarifierChange AppState.initial "province" (.str "ON")).clarifierAnswers =
        [("province", .str "ON")] ∧
      ((stateAfter completedSessionTrace).clarifiersStarted = false ∧
        (stateAfter completedSessionTrace).clarifiersDone = true) ∧
      (stateAfter completedSessionTrace).clarifierAnswers.get "age" = .str "34" ∧
      (handleClarifierChange (stateAfter completedSessionTrace) "age"
        (.str "99")).clarifierAnswers.get "age" = .str "99" := by
  decide

/-- C12 amended: `handleClarifierChange` has no phase guard, it writes the value at the
field in every state; outside InProgress it is never called, because the page offers no
answer input there: for every state whose phase is NotStarted or Completed and every value,
the record-answer action is not offered, so no step of the event loop records an answer. -/
theorem no_answer_input_outside_a_session (s : AppState) (field value : String)
    (hphase : ¬ (s.clarifiersStarted = true ∧ s.clarifiersDone = false)) :
    activeClarifier s = none ∧ enabled s (.answer value) = false ∧
      step s (.answer value) = none ∧
      (handleClarifierChange s field (.str value)).clarifierAnswers =
        JSObject.set s.clarifierAnswers field (.str value) := by
  have hactive : activeClarifier s = none := by
    unfold activeClarifier
    rw [if_neg]
    simpa using hphase
  refine ⟨hactive, ?_, ?_, rfl⟩
  · simp [enabled, hactive]
  · simp [step, enabled, hactive]

/-- The amended C12 at the end of a completed session. -/
theorem no_answer_input_outside_a_session_witness :
    step (stateAfter completedSessionTrace) (.answer "99") = none :=
  (no_answer_input_outside_a_session (stateAfter completedSessionTrace) "age" "99"
    (by decide)).2.2.1

/-! ## Coercion inside the merge -/

/-- Two catalog questions with the same field are the same question. -/
theorem catalog_field_injective :
    ∀ q ∈ CLARIFIER_QUESTIONS, ∀ q' ∈ CLARIFIER_QUESTIONS, q.field = q'.field → q = q' := by
  decide

/-- What a question writes for a non-empty string answer, by type. -/
theorem writtenValue_str (answers : ClarifierAnswers) (q : ClarifierQuestion) (raw : String)
    (hraw : answers.get q.field = .str raw) (hnonempty : raw ≠ "") :
    writtenValue answers q =
      if q.type = "number" then
        if StringToNumber raw ≠ .nan then some (.num (StringToNumber raw)) else none
      else if q.type = "boolean" then
        if raw = "yes" then some (.bool true)
        else if raw = "no" then some (.bool false)
        else none
      else some (.str raw) := by
  unfold writtenValue
  simp only [hraw, RawAnswer.toNumber, RawAnswer.toValue]
  have h1 : ¬ ((RawAnswer.str raw = .undefined) ∨ (RawAnswer.str raw = .null) ∨
      (RawAnswer.str raw = .str "")) := by
    simp [hnonempty]
  rw [if_neg h1]
  simp only [RawAnswer.str.injEq]

/-- The entry of a catalog question that writes a value is that value. -/
theorem updatedProfile_get?_written (base : CaseProfile) (answers : ClarifierAnswers)
    (q : ClarifierQuestion) (hq : q ∈ CLARIFIER_QUESTIONS) (v : JSValue)
    (hw : writtenValue answers q = some v) :
    JSObject.get? (updatedProfile answers base) q.field = some v :=
  applyQuestions_get?_written CLARIFIER_QUESTIONS answers catalog_fields_nodup base q hq v hw

/-- The entry of a catalog question that writes nothing is the entry of the base profile. -/
theorem updatedProfile_get?_unwritten (base : CaseProfile) (answers : ClarifierAnswers)
    (q : ClarifierQuestion) (hq : q ∈ CLARIFIER_QUESTIONS)
    (hw : writtenValue answers q = none) :
    JSObject.get? (updatedProfile answers base) q.field = JSObject.get? base q.field := by
  apply applyQuestions_get?_untouched
  intro q' hq' hfield
  rw [catalog_field_injective q' hq' q hq hfield]
  exact hw

/-- No option value of a catalog question is the empty string. -/
theorem catalog_option_values_nonempty :
    ∀ q ∈ CLARIFIER_QUESTIONS, ∀ o ∈ q.options.getD [], o.value ≠ "" := by
  decide

/-- C13 as stated fails: the select question `province` with the answer `ZZ`, which is none
of its option values, overwrites the base value `QC` with `ZZ`. -/
theorem select_answer_outside_options_overwrites :
    "ZZ" ∉ PROVINCE_OPTIONS.map (fun o => o.value) ∧
      CaseProfile.get [("province", .str "QC")] "province" = .str "QC" ∧
      (updatedProfile [("province", .str "ZZ")] [("province", .str "QC")]).get "province" =
        .str "ZZ" := by
  decide

/-- C13 amended: the merge has no option check. For every catalog question of kind select
and every non-empty raw answer, equal to one of the question's option values or not, the
merge writes the raw string: the merged profile holds it at the question's field, whatever
the base profile held. -/
theorem select_answer_is_written_unchecked (base : CaseProfile) (answers : ClarifierAnswers)
    (q : ClarifierQuestion) (raw : String) (hq : q ∈ CLARIFIER_QUESTIONS)
    (hselect : q.type = "select") (hraw : answers.get q.field = .str raw)
    (hnonempty : raw ≠ "") :
    JSObject.get? (updatedProfile answers base) q.field = some (.str raw) := by
  apply updatedProfile_get?_written base answers q hq
  rw [writtenValue_str answers q raw hraw hnonempty]
  simp [hselect]

/-- The amended C13 at `province` with the answer `ZZ`. -/
theorem select_answer_is_written_unchecked_witness :
    JSObject.get? (updatedProfile [("province", .str "ZZ")] [("province", .str "QC")])
        "province" = some (.str "ZZ") :=
  select_answer_is_written_unchecked [("province", .str "QC")] [("province", .str "ZZ")]
    ⟨"province", "province", "In which province or territory do you live?", "select", true,
      some PROVINCE_OPTIONS, none, none⟩ "ZZ" (by decide) rfl (by decide) (by decide)

/-- C14, string kinds pass through unchanged: for every catalog question of kind select
with a raw answer equal to one of its option values, and for every catalog question of kind
range or text with any non-empty raw answer, the merged profile holds exactly the raw string
at the question's field, whatever the base profile held. -/
theorem string_kinds_pass_through (base : CaseProfile) (answers : ClarifierAnswers)
    (q : ClarifierQuestion) (raw : String) (hq : q ∈ CLARIFIER_QUESTIONS)
    (hraw : answers.get q.field = .str raw)
    (hkind : (q.type = "select" ∧ raw ∈ (q.options.getD []).map (fun o => o.value)) ∨
      ((q.type = "range" ∨ q.type = "text") ∧ raw ≠ "")) :
    JSObject.get? (updatedProfile answers base) q.field = some (.str raw) ∧
      (updatedProfile answers base).get q.field = .str raw := by
  have hnonempty : raw ≠ "" := by
    rcases hkind with ⟨_, hopt⟩ | ⟨_, hne⟩
    · obtain ⟨o, ho, hval⟩ := List.mem_map.mp hopt
      exact hval ▸ catalog_option_values_nonempty q hq o ho
    · exact hne
  have htype : q.type ≠ "number" ∧ q.type ≠ "boolean" := by
    rcases hkind with ⟨h, _⟩ | ⟨h | h, _⟩ <;> rw [h] <;> decide
  have hget : JSObject.get? (updatedProfile answers base) q.field = some (.str raw) := by
    apply updatedProfile_get?_written base answers q hq
    rw [writtenValue_str answers q raw hraw hnonempty]
    simp [htype.1, htype.2]
  exact ⟨hget, by unfold CaseProfile.get; rw [hget]; rfl⟩

/-- Scenario B: the base profile with an empty hours field and the answer `300-600 hours`. -/
theorem string_kinds_pass_through_witness :
    (updatedProfile [("insurable_hours_last_52_weeks", .str "300-600 hours")]
        [("insurable_hours_last_52_weeks", .str "")]).get "insurable_hours_last_52_weeks" =
      .str "300-600 hours" :=
  (string_kinds_pass_through [("insurable_hours_last_52_weeks", .str "")]
    [("insurable_hours_last_52_weeks", .str "300-600 hours")]
    ⟨"insurable_hours_last_52_weeks", "insurable_hours_last_52_weeks",
      "Roughly how many insurable hours did you work in the last 52 weeks? You can give a range.",
      "range", false, none, none, none⟩ "300-600 hours" (by decide) (by decide)
    (Or.inr ⟨Or.inl rfl, by decide⟩)).2

/-! ## Number answers -/

theorem isDigit_bounds (c : Char) (h : c.isDigit = true) : 48 ≤ c.toNat ∧ c.toNat ≤ 57 := by
  simp only [Char.isDigit, Bool.and_eq_true, decide_eq_true_eq] at h
  have h1 : (48 : UInt32) ≤ c.val := h.1
  have h2 : c.val ≤ (57 : UInt32) := h.2
  rw [UInt32.le_def] at h1 h2
  exact ⟨h1, h2⟩

theorem isDigitIn_of_isDigit (c : Char) (h : c.isDigit = true) : isDigitIn 10 c = true := by
  have hb := isDigit_bounds c h
  have h0 : '0' ≤ c := by
    show ('0' : Char).val ≤ c.val
    rw [UInt32.le_def]; exact hb.1
  have h9 : c ≤ '9' := by
    show c.val ≤ ('9' : Char).val
    rw [UInt32.le_def]; exact hb.2
  have hv : digitVal c = c.toNat - 48 := by
    unfold digitVal
    rw [if_pos ⟨h0, h9⟩]
  unfold isDigitIn
  rw [hv]
  simp [h0, h9]
  omega

theorem isDigit_not_whitespace (c : Char) (h : c.isDigit = true) :
    isStrWhiteSpaceChar c = false := by
  have hb := isDigit_bounds c h
  unfold isStrWhiteSpaceChar
  simp
  omega

theorem dropWhile_of_none {p : Char → Bool} (cs : List Char) (h : ∀ c ∈ cs, p c = false) :
    cs.dropWhile p = cs := by
  cases cs with
  | nil => rfl
  | cons a l => simp [List.dropWhile, h a (List.mem_cons_self _ _)]

/-- Trimming leaves a string without white space as it is. -/
theorem trimChars_of_no_whitespace (cs : List Char)
    (h : ∀ c ∈ cs, isStrWhiteSpaceChar c = false) : trimChars cs = cs := by
  unfold trimChars
  rw [dropWhile_of_none cs h,
    dropWhile_of_none cs.reverse (fun c hc => h c (List.mem_reverse.mp hc)),
    List.reverse_reverse]

theorem log2FloorAux_eq (fuel n : Nat) (h : n ≤ fuel) : log2FloorAux fuel n = Nat.log2 n := by
  induction fuel generalizing n with
  | zero =>
    have hn : n = 0 := by omega
    subst hn
    rw [Nat.log2]
    simp [log2FloorAux]
  | succ fuel ih =>
    rw [Nat.log2]
    unfold log2FloorAux
    by_cases h2 : 2 ≤ n
    · have hle : n / 2 ≤ fuel := by omega
      simp only [h2, if_true, ih (n / 2) hle, ge_iff_le]
    · simp only [h2, if_false, ge_iff_le]

theorem log2Floor_eq (n : Nat) : log2Floor n = Nat.log2 n :=
  log2FloorAux_eq n n (Nat.le_refl n)

theorem reduceBinary_mul_pow (negative : Bool) (n k : Nat) :
    reduceBinary negative (n * 2 ^ k) k = .finite negative n 0 := by
  induction k with
  | zero => simp [reduceBinary]
  | succ k ih =>
    have hmod : n * 2 ^ (k + 1) % 2 = 0 := by
      rw [pow_succ, ← Nat.mul_assoc]
      exact Nat.mul_mod_left _ _
    have hdiv : n * 2 ^ (k + 1) / 2 = n * 2 ^ k := by
      rw [pow_succ, ← Nat.mul_assoc]
      exact Nat.mul_div_cancel _ (by decide)
    rw [reduceBinary, if_pos hmod, hdiv, ih]

theorem roundHalfEven_mul (n b : Nat) (hb : 0 < b) : roundHalfEven (n * b) b = n := by
  unfold roundHalfEven
  rw [Nat.mul_mod_left, Nat.mul_div_cancel n hb]
  simp [hb]

theorem floorLog2Ratio_one (n : Nat) (hn : n ≠ 0) :
    floorLog2Ratio n 1 = (Nat.log2 n : Int) := by
  unfold floorLog2Ratio
  rw [log2Floor_eq, log2Floor_eq]
  have h1 : Nat.log2 1 = 0 := by
    rw [Nat.log2]; simp
  have hle : 2 ^ Nat.log2 n ≤ n := Nat.log2_self_le hn
  rw [h1]
  simp [hle]

theorem roundHalfEven_one (n : Nat) : roundHalfEven n 1 = n := by
  have h := roundHalfEven_mul n 1 (by decide)
  rwa [Nat.mul_one] at h

set_option exponentiation.threshold 2000 in
/-- An integer that a double holds exactly is left as it is by the rounding. -/
theorem roundToDouble_exact (negative : Bool) (n m j : Nat) (hn : n = m * 2 ^ j)
    (hm : m < 2 ^ 53) (hlt : n < 2 ^ 1024) :
    roundToDouble negative n 1 = .finite negative n 0 := by
  by_cases h0 : n = 0
  · subst h0
    simp [roundToDouble]
  have hL : Nat.log2 n < 1024 := (Nat.log2_lt h0).mpr hlt
  clear hlt
  have hlog : Nat.log2 n < 53 + j := by
    rw [Nat.log2_lt h0, pow_add, hn]
    exact Nat.mul_lt_mul_of_lt_of_le hm (Nat.le_refl _) (by positivity)
  unfold roundToDouble
  simp only [h0, if_false, floorLog2Ratio_one n h0]
  by_cases hbig : 52 ≤ Nat.log2 n
  · -- the exponent is not negative: n is a multiple of the unit
    obtain ⟨d, hd⟩ : ∃ d, d = Nat.log2 n - 52 := ⟨_, rfl⟩
    have he : max ((Nat.log2 n : Int) - 52) (-1074) = (d : Int) := by omega
    have hdj : d ≤ j := by omega
    rw [he]
    simp only [Int.natCast_nonneg, if_true, Int.toNat_ofNat, Nat.one_mul]
    have hdvd : 2 ^ d ∣ n := by
      have h : 2 ^ d ∣ m * 2 ^ j := Dvd.dvd.mul_left (pow_dvd_pow 2 hdj) m
      rwa [← hn] at h
    obtain ⟨c, hc⟩ := hdvd
    have hcn : c * 2 ^ d = n := by rw [Nat.mul_comm]; exact hc.symm
    have hround : roundHalfEven n (2 ^ d) = c := by
      have h := roundHalfEven_mul c (2 ^ d) (by positivity)
      rwa [hcn] at h
    rw [hround]
    have hc0 : c ≠ 0 := by
      intro hzero
      rw [hzero, Nat.zero_mul] at hcn
      exact h0 hcn.symm
    have hno : ¬ (1024 ≤ log2Floor c + d) := by
      rw [log2Floor_eq]
      have hle : Nat.log2 c + d ≤ Nat.log2 n := by
        rw [Nat.le_log2 h0, pow_add]
        calc 2 ^ Nat.log2 c * 2 ^ d ≤ c * 2 ^ d :=
              Nat.mul_le_mul_right _ (Nat.log2_self_le hc0)
          _ = n := hcn
      omega
    rw [if_neg hno, hcn]
  · -- the exponent is negative: n is scaled up and reduced again
    have hk : max ((Nat.log2 n : Int) - 52) (-1074) = -((52 - Nat.log2 n : Nat) : Int) := by
      omega
    rw [hk]
    have hneg : ¬ (0 ≤ -((52 - Nat.log2 n : Nat) : Int)) := by omega
    simp only [hneg, if_false, neg_neg, Int.toNat_ofNat]
    rw [roundHalfEven_one, reduceBinary_mul_pow]

set_option exponentiation.threshold 2000 in
theorem ofDecimal_exact (negative : Bool) (n m j : Nat) (hn : n = m * 2 ^ j)
    (hm : m < 2 ^ 53) (hlt : n < 2 ^ 1024) :
    ofDecimal negative n 0 = .finite negative n 0 := by
  unfold ofDecimal
  simp only [le_refl, if_true, Int.toNat_zero, pow_zero, Nat.mul_one]
  exact roundToDouble_exact negative n m j hn hm hlt

/-- An unsigned run of decimal digits parses to the double nearest to its value. -/
theorem parseDecimal_digits (negative : Bool) (digits : List Char) (hne : digits ≠ [])
    (hdigits : ∀ c ∈ digits, c.isDigit = true) :
    parseDecimal negative digits = ofDecimal negative (digitsValue 10 digits) 0 := by
  have hall : ∀ c ∈ digits, isDigitIn 10 c = true :=
    fun c hc => isDigitIn_of_isDigit c (hdigits c hc)
  have hinf : digits ≠ "Infinity".data := by
    intro heq
    have := hdigits 'I' (by rw [heq]; decide)
    exact absurd this (by decide)
  have htake : digits.takeWhile (isDigitIn 10) = digits := List.takeWhile_eq_self_iff.mpr hall
  have hdrop : digits.dropWhile (isDigitIn 10) = [] := List.dropWhile_eq_nil_iff.mpr hall
  unfold parseDecimal
  simp only [if_neg hinf, htake, hdrop]
  simp [hne, parseExponent]

theorem StringToNumber_digits (digits : List Char) (hne : digits ≠ [])
    (hdigits : ∀ c ∈ digits, c.isDigit = true) :
    StringToNumber ⟨digits⟩ = ofDecimal false (digitsValue 10 digits) 0 := by
  have htrim : trimChars digits = digits :=
    trimChars_of_no_whitespace digits (fun c hc => isDigit_not_whitespace c (hdigits c hc))
  unfold StringToNumber
  simp only [htrim]
  split
  · exact absurd rfl hne
  · exact absurd (hdigits 'x' (by simp)) (by decide)
  · exact absurd (hdigits 'X' (by simp)) (by decide)
  · exact absurd (hdigits 'o' (by simp)) (by decide)
  · exact absurd (hdigits 'O' (by simp)) (by decide)
  · exact absurd (hdigits 'b' (by simp)) (by decide)
  · exact absurd (hdigits 'B' (by simp)) (by decide)
  · exact absurd (hdigits '+' (by simp)) (by decide)
  · exact absurd (hdigits '-' (by simp)) (by decide)
  · exact parseDecimal_digits false digits hne hdigits

theorem StringToNumber_negative_digits (digits : List Char) (hne : digits ≠ [])
    (hdigits : ∀ c ∈ digits, c.isDigit = true) :
    StringToNumber ⟨'-' :: digits⟩ = ofDecimal true (digitsValue 10 digits) 0 := by
  have htrim : trimChars ('-' :: digits) = '-' :: digits := by
    apply trimChars_of_no_whitespace
    intro c hc
    rcases List.mem_cons.mp hc with h | h
    · rw [h]; decide
    · exact isDigit_not_whitespace c (hdigits c h)
  unfold StringToNumber
  simp only [htrim]
  exact parseDecimal_digits true digits hne hdigits


theorem StringToNumber_positive_digits (digits : List Char) (hne : digits ≠ [])
    (hdigits : ∀ c ∈ digits, c.isDigit = true) :
    StringToNumber ⟨'+' :: digits⟩ = ofDecimal false (digitsValue 10 digits) 0 := by
  have htrim : trimChars ('+' :: digits) = '+' :: digits := by
    apply trimChars_of_no_whitespace
    intro c hc
    rcases List.mem_cons.mp hc with h | h
    · rw [h]; decide
    · exact isDigit_not_whitespace c (hdigits c h)
  unfold StringToNumber
  simp only [htrim]
  exact parseDecimal_digits false digits hne hdigits

/-- A signed run of decimal digits converts to the double nearest to its value. -/
theorem StringToNumber_signed_digits (sign digits : List Char)
    (hsign : sign = [] ∨ sign = ['+'] ∨ sign = ['-'])
    (hne : digits ≠ []) (hdigits : ∀ c ∈ digits, c.isDigit = true) :
    StringToNumber ⟨sign ++ digits⟩ =
      ofDecimal (decide (sign = ['-'])) (digitsValue 10 digits) 0 := by
  rcases hsign with h | h | h <;> subst h
  · exact StringToNumber_digits digits hne hdigits
  · exact StringToNumber_positive_digits digits hne hdigits
  · exact StringToNumber_negative_digits digits hne hdigits

set_option exponentiation.threshold 2000 in
set_option maxRecDepth 100000 in
/-- C15 as stated fails: the number question `age` with the raw answer `9007199254740993`,
the decimal literal of the integer 2^53 + 1, merges to the number 9007199254740992, the
nearest double, and with the raw answer `1` followed by 400 zeros, the decimal literal of
the integer 10^400, it merges to `Infinity`. -/
theorem large_integer_literal_is_rounded :
    digitsValue 10 "9007199254740993".data = 2 ^ 53 + 1 ∧
      (updatedProfile [("age", .str "9007199254740993")] []).get "age" =
        .num (.finite false 9007199254740992 0) ∧
      (updatedProfile [("age", .str "9007199254740993")] []).get "age" ≠
        .num (.finite false 9007199254740993 0) ∧
      digitsValue 10 ('1' :: List.replicate 400 '0') = 10 ^ 400 ∧
      (updatedProfile [("age", .str ⟨'1' :: List.replicate 400 '0'⟩)] []).get "age" =
        .num (.infinity false) := by
  decide

set_option exponentiation.threshold 2000 in
/-- C15 amended, number coercion is lenient about range: for every catalog question of kind
number and every raw answer that is the decimal literal (an optional sign `+` or `-` and one
or more decimal digits) of an integer `n` that a double holds exactly, that is, whose
magnitude is `m * 2 ^ j` with `m < 2 ^ 53` and lies below `2 ^ 1024`, as every integer up to
`2 ^ 53` in magnitude does, the merged profile holds at the field the number `n`, a numeric
value and not the string; the question's `min` and `max` play no part. -/
theorem exact_integer_literal_merges_to_number (base : CaseProfile)
    (answers : ClarifierAnswers) (q : ClarifierQuestion) (sign digits : List Char) (n : Int)
    (m j : Nat) (hq : q ∈ CLARIFIER_QUESTIONS) (hnumber : q.type = "number")
    (hsign : sign = [] ∨ sign = ['+'] ∨ sign = ['-'])
    (hne : digits ≠ []) (hdigits : ∀ c ∈ digits, c.isDigit = true)
    (hn : n = if sign = ['-'] then -(digitsValue 10 digits : Int)
      else (digitsValue 10 digits : Int))
    (hexact : n.natAbs = m * 2 ^ j) (hm : m < 2 ^ 53) (hlt : n.natAbs < 2 ^ 1024)
    (hraw : answers.get q.field = .str ⟨sign ++ digits⟩) :
    JSObject.get? (updatedProfile answers base) q.field =
        some (.num (.finite (decide (sign = ['-'])) n.natAbs 0)) ∧
      (updatedProfile answers base).get q.field =
        .num (.finite (decide (sign = ['-'])) n.natAbs 0) := by
  have habs : n.natAbs = digitsValue 10 digits := by
    rw [hn]
    split_ifs <;> simp
  have hparse : StringToNumber ⟨sign ++ digits⟩ =
      .finite (decide (sign = ['-'])) n.natAbs 0 := by
    rw [StringToNumber_signed_digits sign digits hsign hne hdigits, ← habs]
    exact ofDecimal_exact _ n.natAbs m j hexact hm hlt
  have hnonempty : (⟨sign ++ digits⟩ : String) ≠ "" := by
    intro h
    have hdata : sign ++ digits = [] := congrArg String.data h
    exact hne (List.append_eq_nil.mp hdata).2
  have hget : JSObject.get? (updatedProfile answers base) q.field =
      some (.num (.finite (decide (sign = ['-'])) n.natAbs 0)) := by
    apply updatedProfile_get?_written base answers q hq
    rw [writtenValue_str answers q _ hraw hnonempty, hparse]
    simp [hnumber]
  exact ⟨hget, by unfold CaseProfile.get; rw [hget]; rfl⟩

set_option exponentiation.threshold 2000 in
/-- The question `age`, with `min` 16 and `max` 80, and the answer `200`. -/
theorem exact_integer_literal_merges_to_number_witness :
    (CLARIFIER_QUESTIONS[1]?).map (fun q => (q.field, q.min, q.max)) =
        some ("age", some 16, some 80) ∧
      (updatedProfile [("age", .str "200")] [("age", .num (.finite false 41 0))]).get "age" =
        .num (.finite false 200 0) :=
  ⟨by decide,
    (exact_integer_literal_merges_to_number [("age", .num (.finite false 41 0))]
      [("age", .str "200")]
      ⟨"age", "age", "How old are you?", "number", true, none, some 16, some 80⟩ []
      ['2', '0', '0'] 200 200 0 (by decide) rfl (Or.inl rfl) (by decide) (by decide)
      (by decide) (by decide) (by decide) (by omega) (by decide)).2⟩

/-- A failed answer and an empty answer make every question do the same. -/
theorem clarifierStep_of_failed_answer (answers : ClarifierAnswers) (q : ClarifierQuestion)
    (hq : q ∈ CLARIFIER_QUESTIONS) (hw : writtenValue answers q = none)
    (p : CaseProfile) (q' : ClarifierQuestion) (hq' : q' ∈ CLARIFIER_QUESTIONS) :
    clarifierStep answers p q' =
      clarifierStep (JSObject.set answers q.field (.str "")) p q' := by
  by_cases hfield : q'.field = q.field
  · have hsame : q' = q := catalog_field_injective q' hq' q hq hfield
    subst hsame
    rw [clarifierStep_eq, clarifierStep_eq, hw]
    have hempty : writtenValue (JSObject.set answers q'.field (.str "")) q' = none := by
      unfold writtenValue
      simp [ClarifierAnswers.get, get?_set_self]
    rw [hempty]
  · have hget : ClarifierAnswers.get (JSObject.set answers q.field (.str "")) q'.field =
        answers.get q'.field := by
      unfold ClarifierAnswers.get
      rw [get?_set_other answers q.field q'.field (.str "") (fun h => hfield h.symm)]
    unfold clarifierStep
    rw [hget]

/-- C16, coercion failure during the merge is silent and leaves the base value: the merge
is a total function, and for every number question whose non-empty raw answer `Number`
turns into `NaN` and every boolean question whose non-empty raw answer is neither `yes` nor
`no`, the merged profile has at the question's field what the base profile has, while the
rest of the merge is what it would be had that answer been left empty. -/
theorem failed_coercion_keeps_base_value (base : CaseProfile) (answers : ClarifierAnswers)
    (q : ClarifierQuestion) (raw : String) (hq : q ∈ CLARIFIER_QUESTIONS)
    (hraw : answers.get q.field = .str raw) (hnonempty : raw ≠ "")
    (hfail : (q.type = "number" ∧ StringToNumber raw = .nan) ∨
      (q.type = "boolean" ∧ raw ≠ "yes" ∧ raw ≠ "no")) :
    JSObject.get? (updatedProfile answers base) q.field = JSObject.get? base q.field ∧
      (updatedProfile answers base).get q.field = base.get q.field ∧
      updatedProfile answers base =
        updatedProfile (JSObject.set answers q.field (.str "")) base := by
  have hw : writtenValue answers q = none := by
    rw [writtenValue_str answers q raw hraw hnonempty]
    rcases hfail with ⟨htype, hnan⟩ | ⟨htype, hyes, hno⟩
    · simp [htype, hnan]
    · have hnum : q.type ≠ "number" := by rw [htype]; decide
      simp [htype, hyes, hno]
  have hkeep := updatedProfile_get?_unwritten base answers q hq hw
  refine ⟨hkeep, by unfold CaseProfile.get; rw [hkeep], ?_⟩
  unfold updatedProfile applyQuestions
  exact List.foldl_ext _ _ base
    (fun p q' hq' => clarifierStep_of_failed_answer answers q hq hw p q' hq')

/-- The merge with `age` answered `abc` and `province` answered `ON`: the age of the base
profile stays and the province is merged. -/
theorem failed_coercion_keeps_base_value_witness :
    updatedProfile [("province", .str "ON"), ("age", .str "abc")]
        [("province", .str "QC"), ("age", .num (.finite false 41 0))] =
      [("province", .str "ON"), ("age", .num (.finite false 41 0))] :=
  ((failed_coercion_keeps_base_value
      [("province", .str "QC"), ("age", .num (.finite false 41 0))]
      [("province", .str "ON"), ("age", .str "abc")]
      ⟨"age", "age", "How old are you?", "number", true, none, some 16, some 80⟩ "abc"
      (by decide) (by decide) (by decide) (Or.inl ⟨rfl, by decide⟩)).2.2).trans (by decide)

/-- C17 as stated fails: for the boolean question `is_single_parent` the raw answers `true`
and `false` are not accepted: the merged profile keeps the base value, and has no entry
when the base profile has none. -/
theorem tokens_true_and_false_write_nothing :
    (updatedProfile [("is_single_parent", .str "true")]
        [("is_single_parent", .bool false)]).get "is_single_parent" = .bool false ∧
      (updatedProfile [("is_single_parent", .str "false")]
        [("is_single_parent", .bool true)]).get "is_single_parent" = .bool true ∧
      JSObject.get? (updatedProfile [("is_single_parent", .str "true")] [])
        "is_single_parent" = none := by
  decide

/-- C17 amended: for every catalog question of kind boolean, the raw answer `yes` merges to
the boolean `true` and the raw answer `no` to the boolean `false` (typed booleans, not the
strings), whatever the base profile held; every other raw value, the tokens `true` and
`false` among them, writes nothing and leaves the base profile's entry in place. -/
theorem boolean_answer_merges_yes_and_no_only (base : CaseProfile) (answers : ClarifierAnswers)
    (q : ClarifierQuestion) (hq : q ∈ CLARIFIER_QUESTIONS) (hboolean : q.type = "boolean") :
    (answers.get q.field = .str "yes" →
        JSObject.get? (updatedProfile answers base) q.field = some (.bool true)) ∧
      (answers.get q.field = .str "no" →
        JSObject.get? (updatedProfile answers base) q.field = some (.bool false)) ∧
      (answers.get q.field ≠ .str "yes" → answers.get q.field ≠ .str "no" →
        JSObject.get? (updatedProfile answers base) q.field = JSObject.get? base q.field) := by
  have hnum : q.type ≠ "number" := by rw [hboolean]; decide
  refine ⟨?_, ?_, ?_⟩
  · intro hraw
    apply updatedProfile_get?_written base answers q hq
    rw [writtenValue_str answers q "yes" hraw (by decide)]
    simp [hboolean]
  · intro hraw
    apply updatedProfile_get?_written base answers q hq
    rw [writtenValue_str answers q "no" hraw (by decide)]
    simp [hboolean]
  · intro hyes hno
    apply updatedProfile_get?_unwritten base answers q hq
    unfold writtenValue
    have hnum' : ¬ ("boolean" = "number") := by decide
    simp only [hboolean, hnum', hyes, hno, if_false, if_true]
    split_ifs <;> rfl

/-- The amended C17 at `has_disability`: `yes` over a base value of `false`, and `true`
over a base value of `false`. -/
theorem boolean_answer_merges_yes_and_no_only_witness :
    JSObject.get? (updatedProfile [("has_disability", .str "yes")]
        [("has_disability", .bool false)]) "has_disability" = some (.bool true) ∧
      JSObject.get? (updatedProfile [("has_disability", .str "true")]
        [("has_disability", .bool false)]) "has_disability" = some (.bool false) :=
  ⟨(boolean_answer_merges_yes_and_no_only [("has_disability", .bool false)]
      [("has_disability", .str "yes")]
      ⟨"has_disability", "has_disability",
        "Do you have a disability that affects how you work or access services?",
        "boolean", false, none, none, none⟩ (by decide) rfl).1 (by decide),
    (boolean_answer_merges_yes_and_no_only [("has_disability", .bool false)]
      [("has_disability", .str "true")]
      ⟨"has_disability", "has_disability",
        "Do you have a disability that affects how you work or access services?",
        "boolean", false, none, none, none⟩ (by decide) rfl).2.2 (by decide) (by decide)⟩

/-! ## The follow-up filter -/

theorem keepFollowUp_str (caseProfile : CaseProfile) (text : String) :
    keepFollowUp caseProfile (.str text) =
      some (!(mentionsInsurableHours text && hoursKnown caseProfile)) := by
  unfold keepFollowUp mentionsInsurableHours hoursKnown
  simp only []
  split_ifs with h1 h2
  · simp [h1, h2]
  · simp [h1, h2]
  · simp [h1]

theorem filterFollowUps_strings (caseProfile : CaseProfile) (followUps : List String) :
    filterFollowUps caseProfile (followUps.map JSValue.str) =
      some ((followUps.filter
        (fun text => !(mentionsInsurableHours text && hoursKnown caseProfile))).map
          JSValue.str) := by
  induction followUps with
  | nil => rfl
  | cons text rest ih =>
    simp only [List.map_cons, filterFollowUps, keepFollowUp_str, ih, List.filter_cons]
    cases hkeep : !(mentionsInsurableHours text && hoursKnown caseProfile) <;> simp

/-- C18, the follow-up filter: for every list of follow-up strings and every non-null
profile the result is the input list without exactly those strings that contain `insurable
hours` in any letter case, and only when the profile's `insurable_hours_last_52_weeks` is
present and non-empty; the kept strings are unchanged and in order. When the field is
absent or empty the result is the input list, and so it is, for any list, when the profile
is `null`. -/
theorem followUps_filtered_by_known_hours (followUps : List String) (profile : CaseProfile)
    (anyFollowUps : List JSValue) :
    filteredFollowUpsOf (some profile) (followUps.map JSValue.str) =
        some ((followUps.filter
          (fun text => !(mentionsInsurableHours text && hoursKnown profile))).map
            JSValue.str) ∧
      (followUps.filter
        (fun text => !(mentionsInsurableHours text && hoursKnown profile))).Sublist
          followUps ∧
      (hoursKnown profile = true →
        filteredFollowUpsOf (some profile) (followUps.map JSValue.str) =
          some ((followUps.filter (fun text => !mentionsInsurableHours text)).map
            JSValue.str)) ∧
      (hoursKnown profile = false →
        filteredFollowUpsOf (some profile) (followUps.map JSValue.str) =
          some (followUps.map JSValue.str)) ∧
      filteredFollowUpsOf none anyFollowUps = some anyFollowUps := by
  have hfilter := filterFollowUps_strings profile followUps
  refine ⟨hfilter, List.filter_sublist _, ?_, ?_, rfl⟩
  · intro hknown
    simp only [filteredFollowUpsOf, hfilter, hknown, Bool.and_true]
  · intro hunknown
    simp only [filteredFollowUpsOf, hfilter, hunknown, Bool.and_false, Bool.not_false,
      List.filter_true]

/-- Scenario C, on the function and on the page: the one follow-up about insurable hours is
dropped once the hours are known, in lower case or in capitals, and another one is kept. -/
theorem followUps_filtered_by_known_hours_witness :
    filteredFollowUpsOf (some [("insurable_hours_last_52_weeks", .str "300-600 hours")])
        [.str "Roughly how many insurable hours did you work?"] = some [] ∧
      filteredFollowUpsOf (some [("insurable_hours_last_52_weeks", .str "300-600 hours")])
        [.str "INSURABLE HOURS last year?", .str "Do you have your Record of Employment?"] =
          some [.str "Do you have your Record of Employment?"] ∧
      backendFollowUps (stateAfter hoursSessionTrace) =
        [.str "Roughly how many insurable hours did you work?"] ∧
      filteredFollowUps (stateAfter hoursSessionTrace) = some [] :=
  ⟨((followUps_filtered_by_known_hours ["Roughly how many insurable hours did you work?"]
      [("insurable_hours_last_52_weeks", .str "300-600 hours")] []).2.2.1
      (by decide)).trans (by decide),
    by decide, by decide, by decide⟩

/-- C19, the code at the failing input: with a non-null profile, a follow-up list that
holds a number, `null` or an object makes the filter callback throw (`q.toLowerCase` is not
a function), so no filtered list is produced, whatever the other entries are; on the page,
after a parse response whose follow-up list holds a string and the number 42, the staff
view cannot compute `filteredFollowUps`. Only with a `null` profile does such a list pass
through. -/
theorem filter_throws_on_non_string_follow_up :
    filteredFollowUpsOf (some [("province", .str "QC")])
        [.str "Do you have your Record of Employment?", .num (.finite false 42 0)] = none ∧
      filteredFollowUpsOf (some []) [.null] = none ∧
      filteredFollowUpsOf (some []) [.object 0] = none ∧
      run AppState.initial mixedFollowUpsTrace = some (stateAfter mixedFollowUpsTrace) ∧
      (stateAfter mixedFollowUpsTrace).activeTab = "staff" ∧
      backendFollowUps (stateAfter mixedFollowUpsTrace) =
        [.str "Do you have your Record of Employment?", .num (.finite false 42 0)] ∧
      filteredFollowUps (stateAfter mixedFollowUpsTrace) = none ∧
      filteredFollowUpsOf none
        [.str "Do you have your Record of Employment?", .num (.finite false 42 0)] =
          some [.str "Do you have your Record of Employment?", .num (.finite false 42 0)] := by
  decide

/-! ## The catalog -/

/-- C20, catalog invariant: the twelve question descriptors have pairwise distinct `field`
values and pairwise distinct `id` values, and every question of kind select carries an
options list that is not empty. -/
theorem catalog_is_well_formed :
    CLARIFIER_QUESTIONS.length = 12 ∧
      (CLARIFIER_QUESTIONS.map (fun q => q.field)).Nodup ∧
      (CLARIFIER_QUESTIONS.map (fun q => q.id)).Nodup ∧
      (∀ q ∈ CLARIFIER_QUESTIONS, q.type = "select" →
        q.options.isSome = true ∧ q.options.getD [] ≠ []) := by
  refine ⟨rfl, catalog_fields_nodup, ?_, ?_⟩
  · decide
  · decide

/-- The catalog invariant at `province`: its thirteen options. -/
theorem catalog_is_well_formed_witness :
    (CLARIFIER_QUESTIONS[0]?).map (fun q => (q.field, (q.options.getD []).length)) =
        some ("province", 13) ∧
      (PROVINCE_OPTIONS : List SelectOption) ≠ [] :=
  ⟨by decide,
    (catalog_is_well_formed.2.2.2
      ⟨"province", "province", "In which province or territory do you live?", "select", true,
        some PROVINCE_OPTIONS, none, none⟩ (by decide) rfl).2⟩

/-! ## Frame of the merge and the order of the questions -/

/-- Assignment keeps the property order and appends a new key at the end. -/
theorem keys_set {α : Type} (obj : JSObject α) (key : String) (v : α) :
    (JSObject.set obj key v).map (fun entry => entry.1) =
      if key ∈ obj.map (fun entry => entry.1) then obj.map (fun entry => entry.1)
      else obj.map (fun entry => entry.1) ++ [key] := by
  induction obj with
  | nil => simp [JSObject.set]
  | cons head rest ih =>
    obtain ⟨k, w⟩ := head
    by_cases h : k = key
    · simp [JSObject.set, h]
    · have h' : ¬ key = k := fun e => h e.symm
      by_cases hmem : key ∈ rest.map (fun entry => entry.1)
      · simp only [JSObject.set, h, if_false, List.map_cons, ih, hmem, if_true,
          List.mem_cons, or_true]
      · simp only [JSObject.set, h, if_false, List.map_cons, ih, hmem, List.mem_cons, h',
          or_self, List.cons_append]

theorem set_keys_nodup {α : Type} (obj : JSObject α) (key : String) (v : α)
    (hnodup : (obj.map (fun entry => entry.1)).Nodup) :
    ((JSObject.set obj key v).map (fun entry => entry.1)).Nodup := by
  rw [keys_set]
  split_ifs with hmem
  · exact hnodup
  · exact List.nodup_append.mpr ⟨hnodup, List.nodup_singleton key, by
      intro k hk hk'
      rw [List.mem_singleton] at hk'
      exact hmem (hk' ▸ hk)⟩

/-- In an object without repeated keys, an entry is in the list exactly when reading its
key gives its value. -/
theorem mem_iff_get? {α : Type} (obj : JSObject α) (key : String) (v : α)
    (hnodup : (obj.map (fun entry => entry.1)).Nodup) :
    (key, v) ∈ obj ↔ JSObject.get? obj key = some v := by
  induction obj with
  | nil => simp [JSObject.get?]
  | cons head rest ih =>
    obtain ⟨k, w⟩ := head
    rw [List.map_cons, List.nodup_cons] at hnodup
    by_cases h : k = key
    · subst h
      simp only [JSObject.get?, if_true, List.mem_cons, Prod.mk.injEq, true_and,
        Option.some.injEq]
      constructor
      · rintro (h | h)
        · exact h.symm
        · exact absurd (List.mem_map_of_mem (fun entry => entry.1) h) hnodup.1
      · intro h
        exact Or.inl h.symm
    · have h' : ¬ key = k := fun e => h e.symm
      simp only [JSObject.get?, h, if_false, List.mem_cons, Prod.mk.injEq, h', false_and,
        false_or]
      exact ih hnodup.2

theorem clarifierStep_keys_nodup (answers : ClarifierAnswers) (p : CaseProfile)
    (q : ClarifierQuestion) (hnodup : (p.map (fun entry => entry.1)).Nodup) :
    ((clarifierStep answers p q).map (fun entry => entry.1)).Nodup := by
  rw [clarifierStep_eq]
  cases writtenValue answers q with
  | none => exact hnodup
  | some v => exact set_keys_nodup p q.field v hnodup

theorem applyQuestions_keys_nodup (qs : List ClarifierQuestion) (answers : ClarifierAnswers)
    (p : CaseProfile) (hnodup : (p.map (fun entry => entry.1)).Nodup) :
    ((applyQuestions qs answers p).map (fun entry => entry.1)).Nodup := by
  induction qs generalizing p with
  | nil => exact hnodup
  | cons q qs ih =>
    rw [applyQuestions_cons]
    exact ih _ (clarifierStep_keys_nodup answers p q hnodup)

/-- The loop keeps the keys of the profile in place and appends only fields of the
questions. -/
theorem applyQuestions_keys (qs : List ClarifierQuestion) (answers : ClarifierAnswers)
    (p : CaseProfile) :
    ∃ added : List String,
      (applyQuestions qs answers p).map (fun entry => entry.1) =
        p.map (fun entry => entry.1) ++ added ∧
      ∀ key ∈ added, key ∈ qs.map (fun q => q.field) := by
  induction qs generalizing p with
  | nil => exact ⟨[], by simp [applyQuestions], by simp⟩
  | cons q qs ih =>
    rw [applyQuestions_cons]
    obtain ⟨added, hkeys, hadded⟩ := ih (clarifierStep answers p q)
    have hstep : ∃ first : List String,
        (clarifierStep answers p q).map (fun entry => entry.1) =
          p.map (fun entry => entry.1) ++ first ∧ ∀ key ∈ first, key = q.field := by
      rw [clarifierStep_eq]
      cases writtenValue answers q with
      | none => exact ⟨[], by simp, by simp⟩
      | some v =>
        simp only [keys_set]
        split_ifs
        · exact ⟨[], by simp, by simp⟩
        · exact ⟨[q.field], rfl, by simp⟩
    obtain ⟨first, hfirst, hq⟩ := hstep
    refine ⟨first ++ added, by rw [hkeys, hfirst, List.append_assoc], ?_⟩
    intro key hkey
    rcases List.mem_append.mp hkey with h | h
    · rw [hq key h]; exact List.mem_cons_self _ _
    · exact List.mem_cons_of_mem _ (hadded key h)

/-- The merge reads the answers map only at the fields of the questions. -/
theorem applyQuestions_congr_answers (qs : List ClarifierQuestion)
    (answers answers' : ClarifierAnswers) (p : CaseProfile)
    (hagree : ∀ q ∈ qs, answers.get q.field = answers'.get q.field) :
    applyQuestions qs answers p = applyQuestions qs answers' p := by
  unfold applyQuestions
  apply List.foldl_ext
  intro profile q hq
  unfold clarifierStep
  rw [hagree q hq]

/-- The entry of a key after the loop over questions with pairwise distinct fields: the
value written by the question of that field, if there is one that writes, and the entry of
the profile the loop started from otherwise. -/
theorem applyQuestions_get?_eq (qs qs' : List ClarifierQuestion) (answers : ClarifierAnswers)
    (p : CaseProfile) (hperm : qs.Perm qs')
    (hnodup : (qs'.map (fun q => q.field)).Nodup) (key : String) :
    JSObject.get? (applyQuestions qs answers p) key =
      JSObject.get? (applyQuestions qs' answers p) key := by
  have hnodup' : (qs.map (fun q => q.field)).Nodup :=
    ((hperm.map (fun q => q.field)).nodup_iff).mpr hnodup
  by_cases h : ∃ q ∈ qs, q.field = key ∧ ∃ v, writtenValue answers q = some v
  · obtain ⟨q, hq, hfield, v, hv⟩ := h
    subst hfield
    rw [applyQuestions_get?_written qs answers hnodup' p q hq v hv,
      applyQuestions_get?_written qs' answers hnodup p q (hperm.mem_iff.mp hq) v hv]
  · have hnone : ∀ q ∈ qs, q.field = key → writtenValue answers q = none := by
      intro q hq hfield
      cases hw : writtenValue answers q with
      | none => rfl
      | some v => exact absurd ⟨q, hq, hfield, v, hw⟩ h
    rw [applyQuestions_get?_untouched qs answers key p hnone,
      applyQuestions_get?_untouched qs' answers key p
        (fun q hq => hnone q (hperm.mem_iff.mpr hq))]

/-- Two objects with the same keys in the same order, none repeated, and the same value at
every key are the same object. -/
theorem eq_of_keys_of_get? {α : Type} (obj obj' : JSObject α)
    (hkeys : obj.map (fun entry => entry.1) = obj'.map (fun entry => entry.1))
    (hnodup : (obj.map (fun entry => entry.1)).Nodup)
    (hget : ∀ key, JSObject.get? obj key = JSObject.get? obj' key) : obj = obj' := by
  induction obj generalizing obj' with
  | nil =>
    cases obj' with
    | nil => rfl
    | cons head rest => simp at hkeys
  | cons head rest ih =>
    cases obj' with
    | nil => simp at hkeys
    | cons head' rest' =>
      obtain ⟨k, v⟩ := head
      obtain ⟨k', v'⟩ := head'
      simp only [List.map_cons, List.cons.injEq] at hkeys
      obtain ⟨hk, hrest⟩ := hkeys
      subst hk
      rw [List.map_cons, List.nodup_cons] at hnodup
      have hv : v = v' := by
        have := hget k
        simpa [JSObject.get?] using this
      subst hv
      have hrest_eq : rest = rest' := by
        apply ih rest' hrest hnodup.2
        intro key
        by_cases hkey : k = key
        · subst hkey
          have h1 : JSObject.get? rest k = none := by
            cases hg : JSObject.get? rest k with
            | none => rfl
            | some w =>
              exact absurd (List.mem_map_of_mem (fun entry => entry.1)
                ((mem_iff_get? rest k w hnodup.2).mpr hg)) hnodup.1
          have h2 : JSObject.get? rest' k = none := by
            cases hg : JSObject.get? rest' k with
            | none => rfl
            | some w =>
              have hn' : (rest'.map (fun entry => entry.1)).Nodup := hrest ▸ hnodup.2
              exact absurd (hrest ▸ List.mem_map_of_mem (fun entry => entry.1)
                ((mem_iff_get? rest' k w hn').mpr hg)) hnodup.1
          rw [h1, h2]
        · have := hget key
          simpa [JSObject.get?, hkey] using this
      rw [hrest_eq]

/-- With every field of the questions already a key of the profile, the loop adds no key. -/
theorem applyQuestions_keys_of_present (qs : List ClarifierQuestion) (answers : ClarifierAnswers)
    (p : CaseProfile) (hnodup : (p.map (fun entry => entry.1)).Nodup)
    (hpresent : ∀ q ∈ qs, q.field ∈ p.map (fun entry => entry.1)) :
    (applyQuestions qs answers p).map (fun entry => entry.1) = p.map (fun entry => entry.1) := by
  obtain ⟨added, hkeys, hadded⟩ := applyQuestions_keys qs answers p
  have hnd := applyQuestions_keys_nodup qs answers p hnodup
  rw [hkeys] at hnd
  have hempty : added = [] := by
    cases added with
    | nil => rfl
    | cons key rest =>
      obtain ⟨q, hq, hfield⟩ := List.mem_map.mp (hadded key (List.mem_cons_self _ _))
      have hin : key ∈ p.map (fun entry => entry.1) := hfield ▸ hpresent q hq
      exact absurd hin (fun h => (List.nodup_append.mp hnd).2.2 h (List.mem_cons_self _ _))
  rw [hkeys, hempty, List.append_nil]

/-- C21, frame of the merge: for every base profile and answers map, (a) every key that is
not the field of a catalog question has in the merged profile the entry it has in the base
profile; (b) the merged profile keeps the base profile's keys in place and adds only
catalog fields, so no key outside the base profile's keys and the catalog's fields appears;
(c) the merge reads the answers map only at catalog fields, so an entry under another key
has no effect; (d) `applyClarifiersToProfile` builds the new `case_profile` from the base
value, which the embedding passes by value as the code passes the copy `{ ...prevProfile }`,
and leaves `follow_up_questions`, the other keys of `parseResult` and every other state
cell as they are. -/
theorem merge_frame (base : CaseProfile) (answers answers' : ClarifierAnswers)
    (s : AppState) :
    (∀ key, key ∉ CLARIFIER_QUESTIONS.map (fun q => q.field) →
        JSObject.get? (updatedProfile answers base) key = JSObject.get? base key) ∧
      (∃ added : List String,
        (updatedProfile answers base).map (fun entry => entry.1) =
          base.map (fun entry => entry.1) ++ added ∧
        ∀ key ∈ added, key ∈ CLARIFIER_QUESTIONS.map (fun q => q.field)) ∧
      (∀ key ∈ (updatedProfile answers base).map (fun entry => entry.1),
        key ∈ base.map (fun entry => entry.1) ∨
          key ∈ CLARIFIER_QUESTIONS.map (fun q => q.field)) ∧
      ((∀ q ∈ CLARIFIER_QUESTIONS, answers.get q.field = answers'.get q.field) →
        updatedProfile answers base = updatedProfile answers' base) ∧
      (∀ key value, key ∉ CLARIFIER_QUESTIONS.map (fun q => q.field) →
        updatedProfile (JSObject.set answers key value) base = updatedProfile answers base) ∧
      applyClarifiersToProfile s =
        { s with
          parseResult := s.parseResult.map (fun prev =>
            { case_profile :=
                some (updatedProfile s.clarifierAnswers (prev.case_profile.getD [])),
              follow_up_questions := prev.follow_up_questions,
              other := prev.other }) } := by
  have hkeys := applyQuestions_keys CLARIFIER_QUESTIONS answers base
  refine ⟨?_, hkeys, ?_, ?_, ?_, ?_⟩
  · intro key hkey
    apply applyQuestions_get?_untouched
    intro q hq hfield
    exact absurd (hfield ▸ List.mem_map_of_mem (fun q => q.field) hq) hkey
  · intro key hkey
    obtain ⟨added, heq, hadded⟩ := hkeys
    unfold updatedProfile at hkey
    rw [heq] at hkey
    rcases List.mem_append.mp hkey with h | h
    · exact Or.inl h
    · exact Or.inr (hadded key h)
  · intro hagree
    exact applyQuestions_congr_answers CLARIFIER_QUESTIONS answers answers' base hagree
  · intro key value hkey
    apply applyQuestions_congr_answers
    intro q hq
    have hne : key ≠ q.field :=
      fun h => hkey (h ▸ List.mem_map_of_mem (fun q => q.field) hq)
    unfold ClarifierAnswers.get
    rw [get?_set_other answers key q.field value hne]
  · cases hparse : s.parseResult <;> simp [applyClarifiersToProfile, hparse]

/-- The frame at a base profile with a key outside the catalog and an answers map with an
entry under a key outside the catalog. -/
theorem merge_frame_witness :
    updatedProfile [("province", .str "ON"), ("shoe_size", .str "42")]
        [("notes", .str "called twice"), ("province", .str "QC")] =
      [("notes", .str "called twice"), ("province", .str "ON")] ∧
    JSObject.get? (updatedProfile [("province", .str "ON"), ("shoe_size", .str "42")]
        [("notes", .str "called twice"), ("province", .str "QC")]) "notes" =
      some (.str "called twice") :=
  ⟨by decide,
    ((merge_frame [("notes", .str "called twice"), ("province", .str "QC")]
      [("province", .str "ON"), ("shoe_size", .str "42")] [] AppState.initial).1 "notes"
      (by decide)).trans (by decide)⟩

/-- C22, order independence of the merge: for every base profile, every answers map and
every permutation of `CLARIFIER_QUESTIONS`, the loop over the permuted catalog gives the
same merged profile as the loop over the catalog in its declared order: the same value, or
no value, at every key; for a base profile without repeated keys, as every object is, the
same entries; and the same object, property order included, when every catalog field is
already a key of the base profile. -/
theorem merge_order_independent (base : CaseProfile) (answers : ClarifierAnswers)
    (permuted : List ClarifierQuestion) (hperm : permuted.Perm CLARIFIER_QUESTIONS) :
    (∀ key, JSObject.get? (applyQuestions permuted answers base) key =
        JSObject.get? (updatedProfile answers base) key) ∧
      (∀ key, CaseProfile.get (applyQuestions permuted answers base) key =
        (updatedProfile answers base).get key) ∧
      ((base.map (fun entry => entry.1)).Nodup →
        (applyQuestions permuted answers base).Perm (updatedProfile answers base)) ∧
      ((base.map (fun entry => entry.1)).Nodup →
        (∀ q ∈ CLARIFIER_QUESTIONS, q.field ∈ base.map (fun entry => entry.1)) →
        applyQuestions permuted answers base = updatedProfile answers base) := by
  have hget : ∀ key, JSObject.get? (applyQuestions permuted answers base) key =
      JSObject.get? (updatedProfile answers base) key :=
    fun key => applyQuestions_get?_eq permuted CLARIFIER_QUESTIONS answers base hperm
      catalog_fields_nodup key
  refine ⟨hget, ?_, ?_, ?_⟩
  · intro key
    unfold CaseProfile.get
    rw [hget key]
  · intro hnodup
    have hnd1 := applyQuestions_keys_nodup permuted answers base hnodup
    have hnd2 := applyQuestions_keys_nodup CLARIFIER_QUESTIONS answers base hnodup
    apply (List.perm_ext_iff_of_nodup (List.Nodup.of_map _ hnd1)
      (List.Nodup.of_map _ hnd2)).mpr
    rintro ⟨key, v⟩
    rw [mem_iff_get? _ key v hnd1, hget key]
    exact (mem_iff_get? _ key v hnd2).symm
  · intro hnodup hpresent
    apply eq_of_keys_of_get? _ _ _ (applyQuestions_keys_nodup permuted answers base hnodup) hget
    rw [applyQuestions_keys_of_present permuted answers base hnodup
        (fun q hq => hpresent q (hperm.mem_iff.mp hq))]
    exact (applyQuestions_keys_of_present CLARIFIER_QUESTIONS answers base hnodup
      hpresent).symm

/-- The merge over the catalog in reverse order: the same values as in declared order, and
on an empty base profile the same two entries, added in the order the questions ran. -/
theorem merge_order_independent_witness :
    JSObject.get? (applyQuestions CLARIFIER_QUESTIONS.reverse
        [("province", .str "ON"), ("age", .str "34")] [("province", .str "QC")]) "age" =
      some (.num (.finite false 34 0)) ∧
    applyQuestions CLARIFIER_QUESTIONS.reverse [("province", .str "ON"), ("age", .str "34")]
        [("province", .str "QC")] =
      updatedProfile [("province", .str "ON"), ("age", .str "34")] [("province", .str "QC")] ∧
    applyQuestions CLARIFIER_QUESTIONS.reverse [("province", .str "ON"), ("age", .str "34")]
        [] = [("age", .num (.finite false 34 0)), ("province", .str "ON")] ∧
    updatedProfile [("province", .str "ON"), ("age", .str "34")] [] =
      [("province", .str "ON"), ("age", .num (.finite false 34 0))] :=
  ⟨((merge_order_independent [("province", .str "QC")]
      [("province", .str "ON"), ("age", .str "34")] CLARIFIER_QUESTIONS.reverse
      (List.reverse_perm _)).1 "age").trans (by decide),
    by decide, by decide, by decide⟩

end FairRoute
